import Mathlib

/-!
Task API: query engine, handlers and store.

A shallow embedding of `src/models/taskModel.js` and
`src/controllers/taskController.js`.  JavaScript values are an explicit
inductive type whose numbers are IEEE 754 doubles, held exactly as an integer
or as an integer over a power of two; `pool.query` is an explicit interface
over a store state, and every engine function threads the store and the log of
the calls it issued.
-/

namespace TaskApi

/-! ## JavaScript values -/

/-- The JavaScript values that reach the handlers and the engine.  A number is
an IEEE 754 double: `num n` is the double with the integer value `n`,
`frac m k` the double `m / 2 ^ k` that is no integer (`m` odd, `k` at least
one), `inf` an infinity with its sign and `nan` is `NaN`.  The two zeros are
one value, `num 0`: both are falsy and both have the text `0`, and the program
never divides.  `obj text` is any non-primitive value (an array or object
parsed from the query string or the body), identified by the text `String(v)`
gives for it. -/
inductive JSVal where
  | undefined
  | null
  | bool (b : Bool)
  | num (n : Int)
  | frac (m : Int) (k : Nat)
  | inf (negative : Bool)
  | nan
  | str (s : String)
  | obj (text : String)
  deriving DecidableEq, Repr

/-- The test `typeof v === 'boolean'`. -/
def JSVal.isBoolean : JSVal → Bool
  | .bool _ => true
  | _ => false

/-- The boolean a value is, when `typeof v === 'boolean'`. -/
def JSVal.asBool? : JSVal → Option Bool
  | .bool b => some b
  | _ => none

/-- The test `typeof v === 'string'`. -/
def JSVal.isString : JSVal → Bool
  | .str _ => true
  | _ => false

/-- The white space and line terminators that `String.prototype.trim` removes
and that may surround a numeric literal. -/
def isJsWhitespace (c : Char) : Bool :=
  let n := c.toNat
  n == 9 || n == 10 || n == 11 || n == 12 || n == 13 || n == 32 || n == 160 || n == 5760
    || (8192 ≤ n && n ≤ 8202) || n == 8232 || n == 8233 || n == 8239 || n == 8287
    || n == 12288 || n == 65279

/-! ## Numbers: IEEE 754 doubles -/

/-- The number of binary digits of a positive natural (one for zero). -/
def bitLength (n : Nat) : Nat :=
  (Nat.toDigits 2 n).length

/-- The value `m / 2 ^ k` in lowest terms, as a number: an integer when the
division is exact. -/
def reduceDyadic (m : Int) : Nat → JSVal
  | 0 => .num m
  | k + 1 => if m % 2 = 0 then reduceDyadic (m / 2) k else .frac m (k + 1)

/-- The double nearest to the ratio `num / den` of two positive naturals, with
the sign given (IEEE 754 round to nearest, ties to the even significand).
With `2 ^ e ≤ num / den < 2 ^ (e + 1)` the significand is the ratio in units
of `2 ^ (e - 52)`, in units of `2 ^ -1074` for a subnormal, rounded to a
natural; a result of `2 ^ 1024` or more is an infinity. -/
def roundRatio (negative : Bool) (num den : Nat) : JSVal :=
  let e0 : Int := (bitLength num : Int) - (bitLength den : Int)
  let atLeast : Bool :=
    if 0 ≤ e0 then decide (den * 2 ^ e0.toNat ≤ num) else decide (den ≤ num * 2 ^ (-e0).toNat)
  let e : Int := if atLeast then e0 else e0 - 1
  let u : Int := max (e - 52) (-1074)
  let top : Nat := if 0 ≤ u then num else num * 2 ^ (-u).toNat
  let bottom : Nat := if 0 ≤ u then den * 2 ^ u.toNat else den
  let q0 := top / bottom
  let r := top % bottom
  let q := if bottom < 2 * r then q0 + 1
    else if 2 * r = bottom then (if q0 % 2 = 1 then q0 + 1 else q0)
    else q0
  let signed : Int := if negative then -(q : Int) else (q : Int)
  if 0 ≤ u then
    if 1024 < bitLength q + u.toNat then .inf negative
    else .num (signed * 2 ^ u.toNat)
  else reduceDyadic signed (-u).toNat

/-- The double nearest to `m / 2 ^ k`.  An integer of magnitude at most
`2 ^ 53` is a double itself. -/
def roundDyadic (m : Int) (k : Nat) : JSVal :=
  if k = 0 ∧ m.natAbs ≤ 2 ^ 53 then .num m
  else if m = 0 then .num 0
  else roundRatio (decide (m < 0)) m.natAbs (2 ^ k)

/-! ## Numbers to text -/

/-- Whether the positive ratio `num / den` is below `10 ^ n`. -/
def belowPow10 (num den : Nat) (n : Int) : Bool :=
  if 0 ≤ n then decide (num < den * 10 ^ n.toNat) else decide (num * 10 ^ (-n).toNat < den)

/-- The decimal exponent `n` of a positive ratio:
`10 ^ (n - 1) ≤ num / den < 10 ^ n`. -/
def decimalExponent (num den : Nat) : Int :=
  let d : Int := ((Nat.toDigits 10 num).length : Int) - ((Nat.toDigits 10 den).length : Int)
  if belowPow10 num den d then d else d + 1

/-- The decimal `s × 10 ^ (n - k)` of `k` digits that `Number::toString`
takes for the positive double `x`, equal to `num / den`, when one of `k`
digits denotes `x`: of the two decimals of `k` digits around the ratio, one
that rounds to `x`, the nearer one when both do, the even one when they are
as near. -/
def digitsOfLength (x : JSVal) (num den : Nat) (n : Int) (k : Nat) : Option (Nat × Int) :=
  let shift : Int := (k : Int) - n
  let top : Nat := if 0 ≤ shift then num * 10 ^ shift.toNat else num
  let bottom : Nat := if 0 ≤ shift then den else den * 10 ^ (-shift).toNat
  let s := top / bottom
  let denotes : Nat → Bool := fun c =>
    if 0 ≤ shift then roundRatio false c (10 ^ shift.toNat) == x
    else roundRatio false (c * 10 ^ (-shift).toNat) 1 == x
  let low : Option (Nat × Int) := if denotes s then some (s, n) else none
  let high : Option (Nat × Int) :=
    if denotes (s + 1) then
      (if s + 1 = 10 ^ k then some (10 ^ (k - 1), n + 1) else some (s + 1, n))
    else none
  match low, high with
  | some a, some b =>
    if 2 * top < (2 * s + 1) * bottom then some a
    else if (2 * s + 1) * bottom < 2 * top then some b
    else if s % 2 = 0 then some a else some b
  | some a, none => some a
  | none, some b => some b
  | none, none => none

/-- The digits `s`, their number `k` and the exponent `n` of
`Number::toString` for the positive double `x`, equal to `num / den`: the
least `k` with a decimal of `k` digits that denotes `x`; 17 digits
denote every double. -/
def shortestDigits (x : JSVal) (num den : Nat) : Nat × Nat × Int :=
  let n := decimalExponent num den
  match (List.range 17).findSome? (fun i =>
      (digitsOfLength x num den n (i + 1)).map (fun r => (r.1, i + 1, r.2))) with
  | some r => r
  | none => (num * 10 ^ ((17 : Int) - n).toNat / (den * 10 ^ (n - 17).toNat), 17, n)

/-- The text `Number::toString` lays out for the digits `s`, `k` of them, and
the exponent `n`. -/
def layoutNumber (s k : Nat) (n : Int) : List Char :=
  let ds := Nat.toDigits 10 s
  if (k : Int) ≤ n ∧ n ≤ 21 then ds ++ List.replicate (n.toNat - k) '0'
  else if 0 < n ∧ n ≤ 21 then ds.take n.toNat ++ '.' :: ds.drop n.toNat
  else if -6 < n ∧ n ≤ 0 then '0' :: '.' :: List.replicate (-n).toNat '0' ++ ds
  else
    let mantissa := if k = 1 then ds else ds.take 1 ++ '.' :: ds.drop 1
    let sign := if n - 1 < 0 then '-' else '+'
    mantissa ++ 'e' :: sign :: Nat.toDigits 10 (n - 1).natAbs

/-- The text of the finite number `num / den`, not zero, of the sign given;
`x` is its magnitude as a value. -/
def numberText (negative : Bool) (x : JSVal) (num den : Nat) : String :=
  let r := shortestDigits x num den
  ⟨(if negative then ['-'] else []) ++ layoutNumber r.1 r.2.1 r.2.2⟩

/-- The conversion `String(v)`, also the one a template literal applies.  An
integer of magnitude at most `2 ^ 53` has its decimal digits as text, which
are the digits `Number::toString` finds for it. -/
def JSVal.toStr : JSVal → String
  | .undefined => "undefined"
  | .null => "null"
  | .bool true => "true"
  | .bool false => "false"
  | .num n =>
    if n.natAbs ≤ 2 ^ 53 then toString n
    else numberText (decide (n < 0)) (.num n.natAbs) n.natAbs 1
  | .frac m k => numberText (decide (m < 0)) (.frac m.natAbs k) m.natAbs (2 ^ k)
  | .inf false => "Infinity"
  | .inf true => "-Infinity"
  | .nan => "NaN"
  | .str s => s
  | .obj text => text

/-- The truthiness of a value, as tested by `v ? a : b` and `!v`. -/
def JSVal.truthy : JSVal → Bool
  | .undefined => false
  | .null => false
  | .bool b => b
  | .num n => n != 0
  | .frac _ _ => true
  | .inf _ => true
  | .nan => false
  | .str s => s != ""
  | .obj _ => true

/-- The method `s.toLowerCase()`.  Only the letters `A`..`Z` are mapped; the
engine compares the result with `asc` and `desc` only, and no character
outside `A`..`Z` lower-cases to one of the letters of these two words. -/
def toLowerCase (s : String) : String :=
  ⟨s.data.map Char.toLower⟩

/-! ## Text to numbers, and the operators -/

/-- The digits of a decimal literal, most significant first, as a number. -/
def digitsValue (cs : List Char) : Nat :=
  cs.foldl (fun acc c => 10 * acc + (c.toNat - 48)) 0

/-- The digits of a literal in radix 2, 8 or 16 as a number, when every
character is a digit of the radix. -/
def radixValue (radix : Nat) (cs : List Char) : Option Nat :=
  cs.foldl (fun acc c =>
    let n := c.toNat
    let d : Option Nat :=
      if 48 ≤ n ∧ n ≤ 57 then some (n - 48)
      else if 97 ≤ n ∧ n ≤ 102 then some (n - 87)
      else if 65 ≤ n ∧ n ≤ 70 then some (n - 55)
      else none
    match acc, d with
    | some a, some v => if v < radix then some (a * radix + v) else none
    | _, _ => none) (some 0)

/-- The value of a literal in radix 2, 8 or 16 without its mark. -/
def radixLiteral (radix : Nat) (ds : List Char) : JSVal :=
  match (if ds = [] then none else radixValue radix ds) with
  | some n => roundDyadic n 0
  | none => .nan

/-- The exponent part of a decimal literal, after its `e`. -/
def exponentPart : List Char → Option Int
  | '-' :: ds => if ds != [] && ds.all Char.isDigit then some (-(digitsValue ds : Int)) else none
  | '+' :: ds => if ds != [] && ds.all Char.isDigit then some (digitsValue ds : Int) else none
  | ds => if ds != [] && ds.all Char.isDigit then some (digitsValue ds : Int) else none

/-- The value of an unsigned decimal literal `digits . digits e exponent`,
with the sign given: a literal needs a digit before or after the point, and
its value is rounded to the nearest double. -/
def decimalLiteral (negative : Bool) (cs : List Char) : JSVal :=
  let intDigits := cs.takeWhile Char.isDigit
  let rest1 := cs.dropWhile Char.isDigit
  let fracDigits := match rest1 with
    | '.' :: t => t.takeWhile Char.isDigit
    | _ => []
  let rest2 := match rest1 with
    | '.' :: t => t.dropWhile Char.isDigit
    | _ => rest1
  let exponent : Option Int := match rest2 with
    | [] => some 0
    | c :: t => if c = 'e' ∨ c = 'E' then exponentPart t else none
  match exponent with
  | none => .nan
  | some ex =>
    if intDigits = [] ∧ fracDigits = [] then .nan
    else
      let n := digitsValue (intDigits ++ fracDigits)
      let e10 : Int := ex - fracDigits.length
      if n = 0 then .num 0
      else if 0 ≤ e10 then
        roundDyadic (if negative then -((n * 10 ^ e10.toNat : Nat) : Int)
          else ((n * 10 ^ e10.toNat : Nat) : Int)) 0
      else roundRatio negative n (10 ^ (-e10).toNat)

/-- The value of a decimal literal without its sign: `Infinity` or an unsigned
decimal literal. -/
def signedLiteral (negative : Bool) (cs : List Char) : JSVal :=
  if cs = "Infinity".data then .inf negative else decimalLiteral negative cs

/-- The numeric value of a string, `Number(s)`: white space and line
terminators around the literal are dropped, the empty string is `0`, a
literal marked `0x`, `0o` or `0b` is read in its radix and takes no sign, any
other literal is decimal with an optional sign, and any other text is
`NaN`. -/
def stringToNumber (s : String) : JSVal :=
  let cs := ((s.data.dropWhile isJsWhitespace).reverse.dropWhile isJsWhitespace).reverse
  match cs with
  | [] => .num 0
  | '0' :: 'x' :: ds => radixLiteral 16 ds
  | '0' :: 'X' :: ds => radixLiteral 16 ds
  | '0' :: 'o' :: ds => radixLiteral 8 ds
  | '0' :: 'O' :: ds => radixLiteral 8 ds
  | '0' :: 'b' :: ds => radixLiteral 2 ds
  | '0' :: 'B' :: ds => radixLiteral 2 ds
  | '-' :: ds => signedLiteral true ds
  | '+' :: ds => signedLiteral false ds
  | ds => signedLiteral false ds

/-- The conversion `Number(v)`, also applied by the operators `-` and `*`; an
array or object converts through its text. -/
def JSVal.toNumber : JSVal → JSVal
  | .undefined => .nan
  | .null => .num 0
  | .bool true => .num 1
  | .bool false => .num 0
  | .num n => .num n
  | .frac m k => .frac m k
  | .inf negative => .inf negative
  | .nan => .nan
  | .str s => stringToNumber s
  | .obj text => stringToNumber text

/-- The operator `a - b`: the exact difference of two finite numbers rounded
to the nearest double; infinities of one sign have no difference. -/
def jsSub (a b : JSVal) : JSVal :=
  match a.toNumber, b.toNumber with
  | .num x, .num y => roundDyadic (x - y) 0
  | .num x, .frac m k => roundDyadic (x * 2 ^ k - m) k
  | .frac m k, .num y => roundDyadic (m - y * 2 ^ k) k
  | .frac m k, .frac m2 k2 =>
    roundDyadic (m * 2 ^ (max k k2 - k) - m2 * 2 ^ (max k k2 - k2)) (max k k2)
  | .inf s, .inf t => if s = t then .nan else .inf s
  | .inf s, .num _ => .inf s
  | .inf s, .frac _ _ => .inf s
  | .num _, .inf t => .inf (!t)
  | .frac _ _, .inf t => .inf (!t)
  | _, _ => .nan

/-- The operator `a * b`: the exact product of two finite numbers rounded to
the nearest double; an infinity times zero is `NaN`. -/
def jsMul (a b : JSVal) : JSVal :=
  match a.toNumber, b.toNumber with
  | .num x, .num y => roundDyadic (x * y) 0
  | .num x, .frac m k => roundDyadic (x * m) k
  | .frac m k, .num y => roundDyadic (m * y) k
  | .frac m k, .frac m2 k2 => roundDyadic (m * m2) (k + k2)
  | .inf s, .inf t => .inf (s != t)
  | .inf s, .num y => if y = 0 then .nan else .inf (s != decide (y < 0))
  | .inf s, .frac m _ => .inf (s != decide (m < 0))
  | .num x, .inf t => if x = 0 then .nan else .inf (decide (x < 0) != t)
  | .frac m _, .inf t => .inf (decide (m < 0) != t)
  | _, _ => .nan

/-- A destructuring default `{ v = d }`: it applies to `undefined` only. -/
def orDefault (v d : JSVal) : JSVal :=
  if v = .undefined then d else v

/-- The method `set.has(v)` of a `Set` of strings: only a string primitive can
be equal to a member. -/
def setHas (set : List String) (v : JSVal) : Bool :=
  match v with
  | .str s => set.contains s
  | _ => false

/-! ## The engine: `getTasks` -/

/-- The argument object of `getTasks`; an absent property is `undefined`. -/
structure Filter where
  page : JSVal := .undefined
  limit : JSVal := .undefined
  completed : JSVal := .undefined
  sortBy : JSVal := .undefined
  sortOrder : JSVal := .undefined
  deriving DecidableEq, Repr

/-- One invocation `pool.query(sql, values)`. -/
structure SqlCall where
  sql : String
  values : List JSVal
  deriving DecidableEq, Repr

/-- The set `validSortBy` of `getTasks`. -/
def validSortBy : List String := ["created_at", "updated_at", "title"]

/-- The set `validSortOrder` of `getTasks`. -/
def validSortOrder : List String := ["asc", "desc"]

/-- The spellings of `asc` and `desc` in upper-case and lower-case letters. -/
def directionSpellings : List String :=
  ["asc", "asC", "aSc", "aSC", "Asc", "AsC", "ASc", "ASC",
   "desc", "desC", "deSc", "deSC", "dEsc", "dEsC", "dESc", "dESC",
   "Desc", "DesC", "DeSc", "DeSC", "DEsc", "DEsC", "DESc", "DESC"]

/-- The constant `orderBy` of `getTasks`. -/
def orderByOf (sortBy : JSVal) : JSVal :=
  if setHas validSortBy sortBy then sortBy else .str "created_at"

/-- The constant `direction` of `getTasks`. -/
def directionOf (sortOrder : JSVal) : JSVal :=
  if setHas validSortOrder (.str (toLowerCase sortOrder.toStr)) then sortOrder else .str "desc"

/-- The array `values` of `getTasks` once the completed filter is handled. -/
def completedValues (completed : JSVal) : List JSVal :=
  if completed.isBoolean then [completed] else []

/-- The array `where` of `getTasks`. -/
def whereClauses (completed : JSVal) : List String :=
  if completed.isBoolean then ["completed = $" ++ toString (completedValues completed).length] else []

/-- The constant `whereSql` of `getTasks`. -/
def whereSqlOf (clauses : List String) : String :=
  if clauses.length != 0 then "WHERE " ++ " AND ".intercalate clauses else ""

/-- The template literal `sql` of `getTasks`, with its line breaks and
indentation; `n` is `values.length` after the two last pushes. -/
def listSql (whereSql orderBy direction : String) (n : Nat) : String :=
  "\n    SELECT id, title, completed, created_at, updated_at\n    FROM tasks\n    "
    ++ whereSql ++ "\n    ORDER BY " ++ orderBy ++ " " ++ direction
    ++ "\n    LIMIT $" ++ toString (n - 1) ++ " OFFSET $" ++ toString n ++ "\n  "

/-- The text and the bound values `getTasks` hands to `pool.query`; `none` is
the call with no argument, which takes the default `{}`. -/
def getTasksCall (arg : Option Filter) : SqlCall :=
  let f := arg.getD {}
  let page := orDefault f.page (.num 1)
  let limit := orDefault f.limit (.num 50)
  let completed := f.completed
  let sortBy := orDefault f.sortBy (.str "created_at")
  let sortOrder := orDefault f.sortOrder (.str "desc")
  let offset := jsMul (jsSub page (.num 1)) limit
  let orderBy := orderByOf sortBy
  let direction := directionOf sortOrder
  let values := completedValues completed
  let whereSql := whereSqlOf (whereClauses completed)
  let values := values ++ [limit]
  let values := values ++ [offset]
  { sql := listSql whereSql orderBy.toStr direction.toStr values.length, values := values }

/-! ## Reading a list statement back from its text -/

/-- Remove the leading characters `p` from `s`, when `s` starts with them. -/
def stripHead : List Char → List Char → Option (List Char)
  | [], s => some s
  | _ :: _, [] => none
  | p :: ps, c :: cs => if p = c then stripHead ps cs else none

/-- The variable parts of a list statement: the placeholder of the completed
filter when it has one, the ORDER BY column and direction, and the
placeholders of LIMIT and OFFSET. -/
structure ListStmt where
  wherePh : Option Nat
  column : String
  direction : String
  limitPh : Nat
  offsetPh : Nat
  deriving DecidableEq, Repr

/-- Read an optional `WHERE completed = $k`. -/
def parseWhere (r : List Char) : Option Nat × List Char :=
  match stripHead "WHERE completed = $".data r with
  | some r1 => (some (digitsValue (r1.takeWhile Char.isDigit)), r1.dropWhile Char.isDigit)
  | none => (none, r)

/-- Read `ORDER BY <column> <direction>`: the column runs to the first blank,
the direction to the end of the line. -/
def parseOrderBy (r : List Char) : Option (String × String × List Char) :=
  match stripHead "\n    ORDER BY ".data r with
  | none => none
  | some r1 =>
    match stripHead [' '] (r1.dropWhile (fun c => c != ' ')) with
    | none => none
    | some r2 =>
      some (⟨r1.takeWhile (fun c => c != ' ')⟩, ⟨r2.takeWhile (fun c => c != '\n')⟩,
        r2.dropWhile (fun c => c != '\n'))

/-- Read the last line `LIMIT $k OFFSET $m` and the closing line break. -/
def parseWindow (r : List Char) : Option (Nat × Nat) :=
  match stripHead "\n    LIMIT $".data r with
  | none => none
  | some r1 =>
    match stripHead " OFFSET $".data (r1.dropWhile Char.isDigit) with
    | none => none
    | some r2 =>
      if r2.dropWhile Char.isDigit = "\n  ".data then
        some (digitsValue (r1.takeWhile Char.isDigit), digitsValue (r2.takeWhile Char.isDigit))
      else none

/-- Read a statement of the shape `getTasks` writes back from its text. -/
def parseListSql (sql : String) : Option ListStmt :=
  match stripHead
      "\n    SELECT id, title, completed, created_at, updated_at\n    FROM tasks\n    ".data
      sql.data with
  | none => none
  | some r1 =>
    match parseOrderBy (parseWhere r1).2 with
    | none => none
    | some (column, direction, r3) =>
      match parseWindow r3 with
      | none => none
      | some (limitPh, offsetPh) =>
        some { wherePh := (parseWhere r1).1, column := column, direction := direction,
               limitPh := limitPh, offsetPh := offsetPh }

/-- Whether `part` occurs in `text`. -/
def Occurs (part text : String) : Prop :=
  ∃ pre post : String, text = pre ++ part ++ post

/-! ## The store behind `pool.query` -/

/-- A row of the `tasks` table, with the five columns every statement of the
engine returns; time stamps are instants of the store clock. -/
structure Task where
  id : String
  title : String
  completed : Bool
  created_at : Nat
  updated_at : Nat
  deriving DecidableEq, Repr

/-- The object `pool.query` resolves to. -/
structure QueryResult where
  rows : List Task
  rowCount : Nat
  deriving DecidableEq, Repr

/-- Equality of two outcomes of a store call can be decided. -/
instance instDecidableEqExcept {ε α : Type} [DecidableEq ε] [DecidableEq α] :
    DecidableEq (Except ε α) := fun a b =>
  match a, b with
  | .ok x, .ok y => if h : x = y then isTrue (by rw [h]) else isFalse (fun e => h (by cases e; rfl))
  | .error x, .error y =>
    if h : x = y then isTrue (by rw [h]) else isFalse (fun e => h (by cases e; rfl))
  | .ok _, .error _ => isFalse (fun e => by cases e)
  | .error _, .ok _ => isFalse (fun e => by cases e)

/-- The interface `pool.query(sql, values)` over a store state `σ`: the call
either resolves to a result or rejects with an error, and leaves a store. -/
structure Pool (σ : Type) where
  query : σ → String → List JSVal → Except String QueryResult × σ

/-- The store together with the log of the calls made on the pool, oldest
first. -/
structure World (σ : Type) where
  db : σ
  calls : List SqlCall
  deriving DecidableEq

/-- One call of `pool.query`, recorded in the log. -/
def poolQuery {σ : Type} (pool : Pool σ) (w : World σ) (sql : String) (values : List JSVal) :
    Except String QueryResult × World σ :=
  let r := pool.query w.db sql values
  (r.1, { db := r.2, calls := w.calls ++ [{ sql := sql, values := values }] })

/-- The statement text of `getTaskById`. -/
def sqlSelectById : String :=
  "SELECT id, title, completed, created_at, updated_at FROM tasks WHERE id = $1"

/-- The statement text of `createTask`. -/
def sqlInsert : String :=
  "INSERT INTO tasks (title, completed) VALUES ($1, $2) RETURNING id, title, completed, created_at, updated_at"

/-- The statement text of `updateTask`. -/
def sqlUpdate : String :=
  "UPDATE tasks SET title = $1, completed = $2 WHERE id = $3 RETURNING id, title, completed, created_at, updated_at"

/-- The statement text of `patchTaskCompleted`. -/
def sqlPatch : String :=
  "UPDATE tasks SET completed = $1 WHERE id = $2 RETURNING id, title, completed, created_at, updated_at"

/-- The statement text of `deleteTask`. -/
def sqlDelete : String :=
  "DELETE FROM tasks WHERE id = $1"

/-- Modelled from the spec: the persisted state of the relational store (the
table definition is not under src/): the rows of the single `tasks` table,
the store clock that stamps rows, and the length of the last identifier
handed out. -/
structure Db where
  rows : List Task
  now : Nat
  idLen : Nat
  deriving DecidableEq, Repr

/-- Modelled from the spec: the order of two texts, character by character by
code point, a text coming before its extensions. -/
def textLe : List Char → List Char → Bool
  | [], _ => true
  | _ :: _, [] => false
  | a :: as, b :: bs =>
    if a.toNat < b.toNat then true
    else if b.toNat < a.toNat then false
    else textLe as bs

/-- Modelled from the spec: the order of two rows under a sort column of the
`tasks` table (text by code point, time stamps by instant, `false` before
`true`). -/
def keyLe (column : String) (a b : Task) : Bool :=
  if column = "title" then textLe a.title.data b.title.data
  else if column = "created_at" then decide (a.created_at ≤ b.created_at)
  else if column = "updated_at" then decide (a.updated_at ≤ b.updated_at)
  else if column = "completed" then !a.completed || b.completed
  else textLe a.id.data b.id.data

/-- Modelled from the spec: `ORDER BY column direction`; the direction keyword
is read without regard to case, and rows with equal keys keep the order of
the table. -/
def orderRows (column direction : String) (rows : List Task) : List Task :=
  if toLowerCase direction = "asc" then
    rows.insertionSort (fun a b => keyLe column a b = true)
  else
    rows.insertionSort (fun a b => keyLe column b a = true)

/-- Modelled from the spec: the filtered, ordered rows of a list statement,
before the window is cut. -/
def selectRows (rows : List Task) (completed : Option Bool) (column direction : String) :
    List Task :=
  orderRows column direction
    (match completed with
     | some b => rows.filter (fun t => t.completed == b)
     | none => rows)

/-- The value bound to placeholder `$k`. -/
def boundValue (values : List JSVal) (k : Nat) : Option JSVal :=
  if k = 0 then none else values.get? (k - 1)

/-- The white space of a statement text and around a value sent as text:
blank, tab, line feed, vertical tab, form feed and carriage return. -/
def isSqlSpace (c : Char) : Bool :=
  c.toNat == 32 || (9 ≤ c.toNat && c.toNat ≤ 13)

/-- Modelled from the spec: the text of a row count read as a `bigint`, as the
store reads a value bound to LIMIT or OFFSET: white space around it is
dropped, it is an optionally signed run of decimal digits, and it lies in the
range of 64 bits. -/
def bigintOfText (s : String) : Option Int :=
  let cs := ((s.data.dropWhile isSqlSpace).reverse.dropWhile isSqlSpace).reverse
  let value : Option Int :=
    match cs with
    | '-' :: ds => if ds != [] && ds.all Char.isDigit then some (-(digitsValue ds : Int)) else none
    | '+' :: ds => if ds != [] && ds.all Char.isDigit then some (digitsValue ds : Int) else none
    | ds => if ds != [] && ds.all Char.isDigit then some (digitsValue ds : Int) else none
  match value with
  | some n => if -(2 ^ 63) ≤ n ∧ n < 2 ^ 63 then some n else none
  | none => none

/-- Modelled from the spec: a value bound where the store expects a row count
(LIMIT or OFFSET): `some none` is SQL NULL, `some (some n)` an integer, and
`none` a value the store rejects.  The client sends a number as its text and
a string as it is, and `null` and `undefined` as NULL; an integer of magnitude
at most `2 ^ 53` is read back from its digits as itself, and the text of a
number that is no integer, of an infinity and of `NaN` is no integer. -/
def countParam : JSVal → Option (Option Int)
  | .null => some none
  | .undefined => some none
  | .num n =>
    if n.natAbs ≤ 2 ^ 53 then some (some n)
    else (bigintOfText (JSVal.num n).toStr).map some
  | .str s => (bigintOfText s).map some
  | _ => none

/-- Modelled from the spec: the window `LIMIT limit OFFSET offset` cut from
the rows of a statement.  A negative OFFSET is rejected, then a negative
LIMIT; a NULL offset skips no row and a NULL limit keeps every row. -/
def cutWindow (rows : List Task) (limit offset : Option Int) : Except String (List Task) :=
  if offset.getD 0 < 0 then .error "OFFSET must not be negative"
  else if limit.getD 0 < 0 then .error "LIMIT must not be negative"
  else
    let skipped := rows.drop (offset.getD 0).toNat
    .ok (match limit with
      | some n => skipped.take n.toNat
      | none => skipped)

/-- Modelled from the spec: execution of a list statement.  The statement is
rejected when it orders by something that is no column or direction, when a
placeholder has no bound value or one of the wrong type, and when OFFSET or
LIMIT is negative. -/
def runList (db : Db) (st : ListStmt) (values : List JSVal) : Except String QueryResult :=
  if !(["id", "title", "completed", "created_at", "updated_at"].contains st.column) then
    .error "column does not exist"
  else if !(validSortOrder.contains (toLowerCase st.direction)) then
    .error "syntax error"
  else
    let completed : Option (Option Bool) :=
      match st.wherePh with
      | none => some none
      | some k =>
        match boundValue values k with
        | some (.bool b) => some (some b)
        | _ => none
    match completed, (boundValue values st.limitPh).bind countParam,
        (boundValue values st.offsetPh).bind countParam with
    | some c, some limit, some offset =>
      match cutWindow (selectRows db.rows c st.column st.direction) limit offset with
      | .ok rows => .ok { rows := rows, rowCount := rows.length }
      | .error e => .error e
    | _, _, _ => .error "invalid parameter"

/-- Modelled from the spec: a fresh identifier, longer than every identifier
in the table and than every identifier handed out before. -/
def freshIdLen (db : Db) : Nat :=
  (db.rows.foldl (fun m t => max m t.id.length) db.idLen) + 1

/-! ## Reading the other statements from their text -/

/-- The words and marks of a statement text, in order: a word is a run of
letters, digits, `_` and `$`, white space separates, and any other character
is a mark of its own.  Letters are folded to lower case, as the store folds
key words and names that are not quoted.  `word` holds the characters of the
word being read, last first. -/
def sqlWords : List Char → List Char → List String
  | [], word => if word = [] then [] else [⟨word.reverse⟩]
  | c :: cs, word =>
    if c.isAlphanum || c == '_' || c == '$' then sqlWords cs (c.toLower :: word)
    else
      (if word = [] then [] else [⟨word.reverse⟩]) ++
        (if isSqlSpace c then [] else [String.singleton c]) ++ sqlWords cs []

/-- What a statement writes to a column: the value bound to a placeholder, or
the current time (`NOW()` or `CURRENT_TIMESTAMP`). -/
inductive SqlExpr where
  | param (k : Nat)
  | now
  deriving DecidableEq, Repr

/-- The statements on the `tasks` table, other than the list statement, that
the store reads: the read and the delete of the row with an id, an insert of
values into columns, and an update of the row with an id that assigns to the
columns its SET list names. -/
inductive Stmt where
  | selectById (idPh : Nat)
  | insert (columns : List String) (values : List SqlExpr)
  | update (sets : List (String × SqlExpr)) (idPh : Nat)
  | delete (idPh : Nat)
  deriving DecidableEq, Repr

/-- The number of a placeholder `$k`. -/
def placeholderOf (w : String) : Option Nat :=
  match w.data with
  | '$' :: ds => if ds != [] && ds.all Char.isDigit then some (digitsValue ds) else none
  | _ => none

/-- Read the words of one value of a statement. -/
def parseExpr : List String → Option SqlExpr
  | ["now", "(", ")"] => some .now
  | ["current_timestamp"] => some .now
  | [w] => (placeholderOf w).map .param
  | _ => none

/-- The runs of words between the commas of a list. -/
def splitCommas : List String → List (List String)
  | [] => [[]]
  | w :: ws =>
    if w = "," then [] :: splitCommas ws
    else
      match splitCommas ws with
      | g :: gs => (w :: g) :: gs
      | [] => [[w]]

/-- Every member of a list of optional results, when none is missing. -/
def allSome {α : Type} : List (Option α) → Option (List α)
  | [] => some []
  | none :: _ => none
  | some a :: rest =>
    match allSome rest with
    | some as => some (a :: as)
    | none => none

/-- Read one assignment `column = value` of a SET list. -/
def parseAssignment : List String → Option (String × SqlExpr)
  | column :: "=" :: value => (parseExpr value).map (fun e => (column, e))
  | _ => none

/-- The words of the column list every statement of the engine selects or
returns. -/
def taskColumns : List String :=
  ["id", ",", "title", ",", "completed", ",", "created_at", ",", "updated_at"]

/-- Read a statement from its text: `SELECT <columns> FROM tasks WHERE id =
$k`, `INSERT INTO tasks (<names>) VALUES (<values>) RETURNING <columns>`,
`UPDATE tasks SET <assignments> WHERE id = $k RETURNING <columns>` or `DELETE
FROM tasks WHERE id = $k`, where `<columns>` are the five columns of a task. -/
def parseStmt (sql : String) : Option Stmt :=
  match sqlWords sql.data [] with
  | "select" :: rest =>
    if rest.takeWhile (fun w => w != "from") = taskColumns then
      match rest.dropWhile (fun w => w != "from") with
      | ["from", "tasks", "where", "id", "=", w] => (placeholderOf w).map .selectById
      | _ => none
    else none
  | "insert" :: "into" :: "tasks" :: "(" :: rest =>
    match rest.dropWhile (fun w => w != "values") with
    | "values" :: "(" :: rest2 =>
      let names := splitCommas ((rest.takeWhile (fun w => w != "values")).dropLast)
      let values := splitCommas ((rest2.takeWhile (fun w => w != "returning")).dropLast)
      if (rest.takeWhile (fun w => w != "values")).getLast? = some ")" ∧
          (rest2.takeWhile (fun w => w != "returning")).getLast? = some ")" ∧
          rest2.dropWhile (fun w => w != "returning") = "returning" :: taskColumns then
        match allSome (names.map (fun n => match n with
            | [name] => some name
            | _ => none)), allSome (values.map parseExpr) with
        | some columns, some exprs => some (.insert columns exprs)
        | _, _ => none
      else none
    | _ => none
  | "update" :: "tasks" :: "set" :: rest =>
    match rest.dropWhile (fun w => w != "where") with
    | "where" :: "id" :: "=" :: w :: "returning" :: columns =>
      if columns = taskColumns then
        match allSome ((splitCommas (rest.takeWhile (fun w => w != "where"))).map parseAssignment),
            placeholderOf w with
        | some sets, some k => some (.update sets k)
        | _, _ => none
      else none
    | _ => none
  | ["delete", "from", "tasks", "where", "id", "=", w] => (placeholderOf w).map .delete
  | _ => none

/-- The numbers of the placeholders of a statement. -/
def Stmt.params : Stmt → List Nat
  | .selectById k => [k]
  | .insert _ values => values.filterMap (fun e => match e with
    | .param k => some k
    | .now => none)
  | .update sets k => sets.filterMap (fun a => match a.2 with
    | .param k => some k
    | .now => none) ++ [k]
  | .delete k => [k]

/-- Modelled from the spec: what one assignment does to a row.  The title is
a text, the flag a boolean, and a time stamp can be set to the current time;
`none` is an assignment the store rejects. -/
def assignment (now : Nat) (values : List JSVal) (a : String × SqlExpr) : Option (Task → Task) :=
  match a.2 with
  | .param k =>
    match boundValue values k with
    | some (.str s) => if a.1 = "title" then some (fun t => { t with title := s }) else none
    | some (.bool b) => if a.1 = "completed" then some (fun t => { t with completed := b }) else none
    | _ => none
  | .now =>
    if a.1 = "updated_at" then some (fun t => { t with updated_at := now })
    else if a.1 = "created_at" then some (fun t => { t with created_at := now })
    else none

/-- Modelled from the spec: what a list of assignments does to a row, the
first assignment first. -/
def assignments (now : Nat) (values : List JSVal) : List (String × SqlExpr) → Option (Task → Task)
  | [] => some (fun t => t)
  | a :: rest =>
    match assignment now values a, assignments now values rest with
    | some f, some g => some (fun t => g (f t))
    | _, _ => none

/-- Modelled from the spec: the relational store behind `pool.query` (the pg
client and the table are not under src/).  It reads the statement from its
text and executes it: a list statement; the read of the rows with an id; an
insert, which adds one row made of a fresh id, the flag false and both time
stamps at the current time of the clock, then of the values of the columns
the statement names; an update, which changes in the rows with the id the
columns its SET list names and no other column; and the delete of the rows
with an id.  Insert, update and delete advance the clock.  Rows are matched by
the text of their id.  A statement is rejected when its text is none of these,
when the values bound are not as many as its placeholders, or when a value is
not of the type of its column. -/
def pgQuery (db : Db) (sql : String) (values : List JSVal) : Except String QueryResult × Db :=
  match parseListSql sql with
  | some st => (runList db st values, db)
  | none =>
    match parseStmt sql with
    | none => (.error "syntax error", db)
    | some stmt =>
      if stmt.params.foldl max 0 ≠ values.length then (.error "invalid parameter", db)
      else
        match stmt with
        | .selectById k =>
          match boundValue values k with
          | some (.str id) =>
            let rows := db.rows.filter (fun t => t.id == id)
            (.ok { rows := rows, rowCount := rows.length }, db)
          | _ => (.error "invalid parameter", db)
        | .insert columns exprs =>
          match (if columns.length = exprs.length ∧ columns.contains "title" then
              assignments db.now values (columns.zip exprs) else none) with
          | some fill =>
            let t : Task := fill ⟨⟨List.replicate (freshIdLen db) '0'⟩, "", false, db.now, db.now⟩
            (.ok { rows := [t], rowCount := 1 },
              { rows := db.rows ++ [t], now := db.now + 1, idLen := freshIdLen db })
          | none => (.error "invalid parameter", db)
        | .update sets k =>
          match assignments db.now values sets, boundValue values k with
          | some change, some (.str id) =>
            let rows := (db.rows.filter (fun t => t.id == id)).map change
            (.ok { rows := rows, rowCount := rows.length },
              { db with rows := db.rows.map (fun t => if t.id == id then change t else t),
                        now := db.now + 1 })
          | _, _ => (.error "invalid parameter", db)
        | .delete k =>
          match boundValue values k with
          | some (.str id) =>
            (.ok { rows := [], rowCount := (db.rows.filter (fun t => t.id == id)).length },
              { db with rows := db.rows.filter (fun t => !(t.id == id)), now := db.now + 1 })
          | _ => (.error "invalid parameter", db)

/-- The pool over the modelled store. -/
def pgPool : Pool Db :=
  { query := pgQuery }

/-! ## The engine over a pool -/

/-- The function `getTasks`: one call of the pool with the text and values of
`getTasksCall`, resolving to the rows of the result. -/
def getTasks {σ : Type} (pool : Pool σ) (arg : Option Filter) (w : World σ) :
    Except String (List Task) × World σ :=
  let call := getTasksCall arg
  match poolQuery pool w call.sql call.values with
  | (.ok r, w1) => (.ok r.rows, w1)
  | (.error e, w1) => (.error e, w1)

/-- The function `getTaskById`; `none` is the `null` of `rows[0] || null`. -/
def getTaskById {σ : Type} (pool : Pool σ) (id : JSVal) (w : World σ) :
    Except String (Option Task) × World σ :=
  match poolQuery pool w sqlSelectById [id] with
  | (.ok r, w1) => (.ok r.rows.head?, w1)
  | (.error e, w1) => (.error e, w1)

/-- The function `patchTaskCompleted`: a value that is no boolean makes it read
the current row first and write the negation of its flag. -/
def patchTaskCompleted {σ : Type} (pool : Pool σ) (id completed : JSVal) (w : World σ) :
    Except String (Option Task) × World σ :=
  let write := fun (nextCompleted : JSVal) (w0 : World σ) =>
    match poolQuery pool w0 sqlPatch [nextCompleted, id] with
    | (.ok r, w1) => (Except.ok r.rows.head?, w1)
    | (.error e, w1) => (Except.error e, w1)
  if !completed.isBoolean then
    match getTaskById pool id w with
    | (.error e, w1) => (.error e, w1)
    | (.ok none, w1) => (.ok none, w1)
    | (.ok (some current), w1) => write (.bool (!current.completed)) w1
  else write completed w

/-! ## The handler `listTasks` -/

/-- The object `req.query`; an absent parameter is `undefined`. -/
structure Query where
  page : JSVal := .undefined
  limit : JSVal := .undefined
  completed : JSVal := .undefined
  sortBy : JSVal := .undefined
  sortOrder : JSVal := .undefined
  deriving DecidableEq, Repr

/-- The argument `listTasks` builds for `getTasks` from the query. -/
def listTasksFilter (q : Query) : Filter :=
  let page := orDefault q.page (.num 1)
  let limit := orDefault q.limit (.num 10)
  let completed := q.completed
  { page := if page.truthy then page.toNumber else .undefined,
    limit := if limit.truthy then limit.toNumber else .undefined,
    completed := if completed.isString then .bool (completed == .str "true") else .undefined,
    sortBy := q.sortBy,
    sortOrder := q.sortOrder }

/-- What a handler wrote to the response: the status and the JSON body. -/
structure Response where
  status : Nat
  body : List Task
  deriving DecidableEq, Repr

/-- The body of the handler `listTasks`: the tasks of `getTasks` are sent with
status 200; a rejection of the store leaves the body of the handler. -/
def listTasks {σ : Type} (pool : Pool σ) (q : Query) (w : World σ) :
    Except String Response × World σ :=
  match getTasks pool (some (listTasksFilter q)) w with
  | (.ok tasks, w1) => (.ok { status := 200, body := tasks }, w1)
  | (.error e, w1) => (.error e, w1)

/-- The test `Number.isSafeInteger` on an integer: its magnitude is at most
`2 ^ 53 - 1`. -/
def isSafeInteger (n : Int) : Bool :=
  decide (n.natAbs ≤ 2 ^ 53 - 1)

/-- The values bound to LIMIT and OFFSET are integers, the limit at least one
and the offset not negative. -/
def validWindow (values : List JSVal) : Bool :=
  match values.reverse with
  | .num offset :: .num limit :: _ => decide (1 ≤ limit) && decide (0 ≤ offset)
  | _ => false


/-! ## The engine: `createTask`, `updateTask`, `deleteTask` -/

/-- The object `req.body` of the task routes, also the argument object of
`createTask` and `updateTask`; an absent property is `undefined`. -/
structure Body where
  title : JSVal := .undefined
  completed : JSVal := .undefined
  deriving DecidableEq, Repr

/-- The function `createTask`: it takes `title` alone from its argument and
resolves to `rows[0]`, which is `undefined` (`none`) when the store returns no
row. -/
def createTask {σ : Type} (pool : Pool σ) (arg : Body) (w : World σ) :
    Except String (Option Task) × World σ :=
  match poolQuery pool w sqlInsert [arg.title, .bool false] with
  | (.ok r, w1) => (.ok r.rows.head?, w1)
  | (.error e, w1) => (.error e, w1)

/-- The function `updateTask`; `none` is the `null` of `rows[0] || null`. -/
def updateTask {σ : Type} (pool : Pool σ) (id : JSVal) (arg : Body) (w : World σ) :
    Except String (Option Task) × World σ :=
  match poolQuery pool w sqlUpdate [arg.title, arg.completed, id] with
  | (.ok r, w1) => (.ok r.rows.head?, w1)
  | (.error e, w1) => (.error e, w1)

/-- The function `deleteTask`: whether the store reports a removed row. -/
def deleteTask {σ : Type} (pool : Pool σ) (id : JSVal) (w : World σ) :
    Except String Bool × World σ :=
  match poolQuery pool w sqlDelete [id] with
  | (.ok r, w1) => (.ok (decide (r.rowCount > 0)), w1)
  | (.error e, w1) => (.error e, w1)

/-- What the UPDATE of `updateTask` does to a row of the table: the row with
the given id gets the title and the flag, any other row is kept. -/
def replaceRow (id title : String) (completed : Bool) (t : Task) : Task :=
  if t.id == id then { t with title := title, completed := completed } else t

/-- What the UPDATE of `patchTaskCompleted` does to a row of the table: the
row with the given id gets the flag, any other row is kept. -/
def patchRow (id : String) (completed : Bool) (t : Task) : Task :=
  if t.id == id then { t with completed := completed } else t

/-- Modelled from the spec: the row an insert adds to the table. -/
def insertedRow (db : Db) (title : String) (completed : Bool) : Task :=
  { id := ⟨List.replicate (freshIdLen db) '0'⟩, title := title, completed := completed,
    created_at := db.now, updated_at := db.now }

/-! ## Error objects and `errorHandler` -/

/-- One entry of the `details` of a validation error. -/
structure Detail where
  message : String
  path : List String
  deriving DecidableEq, Repr

/-- The error values that reach `next` and `errorHandler`: the objects the
handlers and the validation middleware build, and the errors the store
rejects with, which carry a message only.  An absent property is `none`. -/
structure ErrObj where
  statusCode : Option Int := none
  message : Option String := none
  details : Option (List Detail) := none
  deriving DecidableEq, Repr

/-- The object `response` of `errorHandler`, sent as the JSON body. -/
structure ErrorBody where
  error : String
  statusCode : Int
  details : Option (List Detail)
  deriving DecidableEq, Repr

/-- What `errorHandler` does: the status it sets, the body it sends and what
it writes to the server log with `console.error`. -/
structure ErrorReply where
  status : Int
  body : ErrorBody
  logged : Option ErrObj
  deriving DecidableEq, Repr

/-- The function `errorHandler`; `||` takes its right side for an absent
property, for the number 0 and for the empty string, and an array of details
is always truthy. -/
def errorHandler (err : ErrObj) : ErrorReply :=
  let statusCode : Int :=
    match err.statusCode with
    | some n => if n != 0 then n else 500
    | none => 500
  let response : ErrorBody :=
    { error :=
        match err.message with
        | some m => if m != "" then m else "Internal Server Error"
        | none => "Internal Server Error",
      statusCode := statusCode,
      details := none }
  let response : ErrorBody :=
    match err.details with
    | some d => { response with details := some d }
    | none => response
  { status := statusCode, body := response,
    logged := if statusCode ≥ 500 then some err else none }

/-! ## The handlers of the task routes -/

/-- A JavaScript object of the request, as its properties in order. -/
structure Obj where
  fields : List (String × JSVal)
  deriving DecidableEq, Repr

/-- The property access `o[key]`; an absent property is `undefined`. -/
def Obj.prop (o : Obj) (key : String) : JSVal :=
  match o.fields.lookup key with
  | some v => v
  | none => .undefined

/-- The parts of `req` the handlers and the validation middleware use. -/
structure Request where
  params : Obj
  body : Obj
  query : Obj
  deriving DecidableEq, Repr

/-- One response written with `res.status(s).json(task)` or, with no body,
`res.status(s).send()`. -/
structure Sent where
  status : Nat
  body : Option Task
  deriving DecidableEq, Repr

/-- What a handler did: the responses it wrote and its calls of `next`, each
in order; a call `next()` without an argument is `none`. -/
structure Effects where
  sent : List Sent := []
  nexts : List (Option ErrObj) := []
  deriving DecidableEq, Repr

/-- Modelled from the spec: the wrapper `asyncHandler` of the handlers
(`src/utils/asyncHandler.js` is not under src/): the wrapped function runs,
and a failure it rejects with is handed to `next` as an error that carries the
message of the failure. -/
def asyncHandler {σ : Type} (fn : World σ → Except String Effects × World σ) (w : World σ) :
    Effects × World σ :=
  match fn w with
  | (.ok effects, w1) => (effects, w1)
  | (.error e, w1) => ({ nexts := [some { message := some e }] }, w1)

/-- The object `{ statusCode: 404, message: 'Task not found' }`. -/
def taskNotFound : ErrObj :=
  { statusCode := some 404, message := some "Task not found" }

/-- The handler `getTaskController`. -/
def getTaskController {σ : Type} (pool : Pool σ) (req : Request) (w : World σ) :
    Effects × World σ :=
  asyncHandler (fun w0 =>
    let id := req.params.prop "id"
    match getTaskById pool id w0 with
    | (.error e, w1) => (.error e, w1)
    | (.ok none, w1) => (.ok { nexts := [some taskNotFound] }, w1)
    | (.ok (some task), w1) => (.ok { sent := [{ status := 200, body := some task }] }, w1)) w

/-- The handler `createTaskController`. -/
def createTaskController {σ : Type} (pool : Pool σ) (req : Request) (w : World σ) :
    Effects × World σ :=
  asyncHandler (fun w0 =>
    match createTask pool { title := req.body.prop "title" } w0 with
    | (.error e, w1) => (.error e, w1)
    | (.ok task, w1) => (.ok { sent := [{ status := 201, body := task }] }, w1)) w

/-- The handler `updateTaskController`. -/
def updateTaskController {σ : Type} (pool : Pool σ) (req : Request) (w : World σ) :
    Effects × World σ :=
  asyncHandler (fun w0 =>
    let id := req.params.prop "id"
    match updateTask pool id
        { title := req.body.prop "title", completed := req.body.prop "completed" } w0 with
    | (.error e, w1) => (.error e, w1)
    | (.ok none, w1) => (.ok { nexts := [some taskNotFound] }, w1)
    | (.ok (some updated), w1) =>
      (.ok { sent := [{ status := 200, body := some updated }] }, w1)) w

/-- The handler `patchCompletedController`. -/
def patchCompletedController {σ : Type} (pool : Pool σ) (req : Request) (w : World σ) :
    Effects × World σ :=
  asyncHandler (fun w0 =>
    let id := req.params.prop "id"
    match patchTaskCompleted pool id (req.body.prop "completed") w0 with
    | (.error e, w1) => (.error e, w1)
    | (.ok none, w1) => (.ok { nexts := [some taskNotFound] }, w1)
    | (.ok (some updated), w1) =>
      (.ok { sent := [{ status := 200, body := some updated }] }, w1)) w

/-- The handler `deleteTaskController`. -/
def deleteTaskController {σ : Type} (pool : Pool σ) (req : Request) (w : World σ) :
    Effects × World σ :=
  asyncHandler (fun w0 =>
    let id := req.params.prop "id"
    match deleteTask pool id w0 with
    | (.error e, w1) => (.error e, w1)
    | (.ok false, w1) => (.ok { nexts := [some taskNotFound] }, w1)
    | (.ok true, w1) => (.ok { sent := [{ status := 204, body := none }] }, w1)) w

/-! ## Validation -/

/-- One entry of `error.details` as a schema reports it. -/
structure Violation where
  message : String
  path : List String
  type : String
  deriving DecidableEq, Repr

/-- What `schema.validate(value, options)` returns: the details of the error
when there is one, and the value. -/
structure Validated where
  error : Option (List Violation)
  value : Obj
  deriving DecidableEq, Repr

/-- A schema, as its method `validate` under the options the middleware
passes, `abortEarly: false` and `stripUnknown: true`. -/
structure Schema where
  validate : Obj → Validated

/-- The property of the request a middleware validates. -/
inductive Property where
  | body
  | params
  | query
  deriving DecidableEq, Repr

/-- The access `req[property]`. -/
def Request.get (req : Request) : Property → Obj
  | .body => req.body
  | .params => req.params
  | .query => req.query

/-- The assignment `req[property] = value`. -/
def Request.set (req : Request) (property : Property) (value : Obj) : Request :=
  match property with
  | .body => { req with body := value }
  | .params => { req with params := value }
  | .query => { req with query := value }

/-- The middleware `validate(schema, property)`: on an error it calls `next`
with the status 400 and the message and path of every detail, and leaves the
request alone; otherwise it assigns the sanitized value back and calls `next()`.
It writes no response. -/
def validate (schema : Schema) (property : Property) (req : Request) : Request × Effects :=
  let r := schema.validate (req.get property)
  match r.error with
  | some details =>
    (req, { nexts := [some
      { statusCode := some 400,
        message := some "Validation error",
        details := some (details.map (fun d => { message := d.message, path := d.path })) }] })
  | none => (req.set property r.value, { nexts := [none] })

/-- The method `s.trim()`. -/
def jsTrim (s : String) : String :=
  ⟨((s.data.dropWhile isJsWhitespace).reverse.dropWhile isJsWhitespace).reverse⟩

/-- The property `s.length`: the number of UTF-16 code units. -/
def jsLength (s : String) : Nat :=
  (s.data.map (fun c => if c.toNat ≥ 65536 then 2 else 1)).sum

/-- A hexadecimal digit, in either case. -/
def isHexDigit (c : Char) : Bool :=
  let n := c.toNat
  (48 ≤ n && n ≤ 57) || (65 ≤ n && n ≤ 70) || (97 ≤ n && n ≤ 102)

/-- Modelled from the spec: the textual format of a UUID of one of the given
versions (the pattern of the validation library is not under src/): 36
characters, hexadecimal digits in groups of 8, 4, 4, 4 and 12 separated by
hyphens, the first digit of the third group the version and the first digit of
the fourth group one of 8, 9, a, b. -/
def isUuid (versions : List Nat) (s : String) : Bool :=
  s.data.length == 36 &&
    s.data.enum.all (fun (i, c) =>
      if i == 8 || i == 13 || i == 18 || i == 23 then c == '-'
      else if i == 14 then versions.any (fun v => c.toNat == 48 + v)
      else if i == 19 then ['8', '9', 'a', 'b', 'A', 'B'].contains c
      else isHexDigit c)

/-- The rules the schemas of `validateTask.js` declare for one key. -/
inductive FieldSchema where
  | string (trim : Bool) (min max : Option Nat) (guid : Option (List Nat)) (required : Bool)
  | boolean (required : Bool)
  deriving DecidableEq, Repr

/-- The outcome of the rules of one key: the sanitized value when the key
stays in the object, and the violations found. -/
structure FieldResult where
  value : Option JSVal
  violations : List Violation
  deriving DecidableEq, Repr

/-- The violation of `type` at `key` with the text the library gives it. -/
def violation (key type text : String) : Violation :=
  { message := "\"" ++ key ++ "\" " ++ text, path := [key], type := type }

/-- Modelled from the spec: the check of one key against its rules (the
validation library is not under src/).  A required key must be there; a string
must be a string primitive, is trimmed first when the schema says so, must not
be empty, and is then held against every further rule (all violations are
reported); a boolean must be a boolean or one of the texts `true` and `false`,
which are converted. -/
def validateField (key : String) : FieldSchema → JSVal → FieldResult
  | .string _ _ _ _ required, .undefined =>
    { value := none,
      violations := if required then [violation key "any.required" "is required"] else [] }
  | .string trim min max guid _, .str s =>
    let t := if trim then jsTrim s else s
    if t = "" then
      { value := some (.str t),
        violations := [violation key "string.empty" "is not allowed to be empty"] }
    else
      { value := some (.str t),
        violations :=
          (match min with
           | some n =>
             if jsLength t < n then
               [violation key "string.min"
                 ("length must be at least " ++ toString n ++ " characters long")]
             else []
           | none => []) ++
          (match max with
           | some n =>
             if jsLength t > n then
               [violation key "string.max"
                 ("length must be less than or equal to " ++ toString n ++ " characters long")]
             else []
           | none => []) ++
          (match guid with
           | some versions =>
             if isUuid versions t then [] else [violation key "string.guid" "must be a valid GUID"]
           | none => []) }
  | .string _ _ _ _ _, v =>
    { value := some v, violations := [violation key "string.base" "must be a string"] }
  | .boolean required, .undefined =>
    { value := none,
      violations := if required then [violation key "any.required" "is required"] else [] }
  | .boolean _, .bool b => { value := some (.bool b), violations := [] }
  | .boolean _, .str s =>
    if toLowerCase s = "true" then { value := some (.bool true), violations := [] }
    else if toLowerCase s = "false" then { value := some (.bool false), violations := [] }
    else { value := some (.str s),
           violations := [violation key "boolean.base" "must be a boolean"] }
  | .boolean _, v =>
    { value := some v, violations := [violation key "boolean.base" "must be a boolean"] }

/-- Modelled from the spec: `Joi.object(keys)` validated with
`abortEarly: false` and `stripUnknown: true`: every declared key is checked,
the violations of all keys are collected in the order of the declaration, and
the value holds the declared keys that are there, sanitized, and no other
key. -/
def objectSchema (keys : List (String × FieldSchema)) : Schema :=
  { validate := fun o =>
      let results := keys.map (fun (key, rules) => (key, validateField key rules (o.prop key)))
      let violations := (results.map (fun r => r.2.violations)).flatten
      { error := if violations.isEmpty then none else some violations,
        value := ⟨results.filterMap (fun r => r.2.value.map (fun v => (r.1, v)))⟩ } }

/-- The schema `idParamSchema`. -/
def idParamSchema : Schema :=
  objectSchema [("id", .string false none none (some [4, 5]) true)]

/-- The schema `createTaskSchema`. -/
def createTaskSchema : Schema :=
  objectSchema [("title", .string true (some 1) (some 255) none true)]

/-- The schema `updateTaskSchema`. -/
def updateTaskSchema : Schema :=
  objectSchema
    [("title", .string true (some 1) (some 255) none true), ("completed", .boolean true)]

/-- The schema `patchCompletedSchema`. -/
def patchCompletedSchema : Schema :=
  objectSchema [("completed", .boolean false)]

/-- What the client gets for a request: the response of a handler, or the
reply of `errorHandler`. -/
inductive HttpReply where
  | sent (response : Sent)
  | failed (reply : ErrorReply)
  | nothing
  deriving DecidableEq, Repr

/-- Modelled from the spec: a route of the task router
(`src/routes/taskRoutes.js` is not under src/).  The validation middlewares run
in order; the first error one of them hands to `next` goes to `errorHandler`
and nothing after it runs; with no error the handler runs on the sanitized
request, and an error it hands to `next` goes to `errorHandler`. -/
def runRoute {σ : Type} (checks : List (Schema × Property))
    (handler : Request → World σ → Effects × World σ) (req : Request) (w : World σ) :
    HttpReply × World σ :=
  match checks with
  | [] =>
    let r := handler req w
    match r.1.sent, r.1.nexts with
    | response :: _, _ => (.sent response, r.2)
    | [], some err :: _ => (.failed (errorHandler err), r.2)
    | [], _ => (.nothing, r.2)
  | (schema, property) :: rest =>
    match (validate schema property req).2.nexts with
    | [none] => runRoute rest handler (validate schema property req).1 w
    | some err :: _ => (.failed (errorHandler err), w)
    | _ => (.nothing, w)

/-- Modelled from the spec: the route `GET /api/v1/tasks/{id}`. -/
def getTaskRoute {σ : Type} (pool : Pool σ) : Request → World σ → HttpReply × World σ :=
  runRoute [(idParamSchema, .params)] (getTaskController pool)

/-- Modelled from the spec: the route `PUT /api/v1/tasks/{id}`. -/
def updateTaskRoute {σ : Type} (pool : Pool σ) : Request → World σ → HttpReply × World σ :=
  runRoute [(idParamSchema, .params), (updateTaskSchema, .body)] (updateTaskController pool)

/-- Modelled from the spec: the route `PATCH /api/v1/tasks/{id}/completed`. -/
def patchCompletedRoute {σ : Type} (pool : Pool σ) : Request → World σ → HttpReply × World σ :=
  runRoute [(idParamSchema, .params), (patchCompletedSchema, .body)]
    (patchCompletedController pool)

/-- Modelled from the spec: the route `DELETE /api/v1/tasks/{id}`. -/
def deleteTaskRoute {σ : Type} (pool : Pool σ) : Request → World σ → HttpReply × World σ :=
  runRoute [(idParamSchema, .params)] (deleteTaskController pool)

/-- Modelled from the spec: the route `POST /api/v1/tasks`. -/
def createTaskRoute {σ : Type} (pool : Pool σ) : Request → World σ → HttpReply × World σ :=
  runRoute [(createTaskSchema, .body)] (createTaskController pool)

/-! ## The placeholders of a statement -/

/-- The numbers of the placeholders `$k` in a text, in the order they occur. -/
def placeholdersOf : List Char → List Nat
  | [] => []
  | c :: cs =>
    if c = '$' then digitsValue (cs.takeWhile Char.isDigit) :: placeholdersOf cs
    else placeholdersOf cs

/-- The numbers of the placeholders of a statement text. -/
def placeholders (sql : String) : List Nat :=
  placeholdersOf sql.data

/-! ## Lemmas on the text of the list statement -/

theorem stripHead_append (p r : List Char) : stripHead p (p ++ r) = some r := by
  induction p with
  | nil => cases r <;> rfl
  | cons c cs ih => simp [stripHead, ih]

theorem listSql_data (w col dir : String) (n : Nat) : (listSql w col dir n).data =
    "\n    SELECT id, title, completed, created_at, updated_at\n    FROM tasks\n    ".data
      ++ (w.data ++ ("\n    ORDER BY ".data ++ (col.data ++ (' ' :: (dir.data
      ++ ("\n    LIMIT $".data ++ ((toString (n - 1)).data ++ (" OFFSET $".data
      ++ ((toString n).data ++ "\n  ".data))))))))) := by
  simp [listSql, String.data_append, List.append_assoc]

theorem takeWhile_append_stop (p : Char → Bool) (a r : List Char) (b : Char)
    (ha : ∀ c ∈ a, p c = true) (hb : p b = false) :
    (a ++ b :: r).takeWhile p = a ∧ (a ++ b :: r).dropWhile p = b :: r := by
  induction a with
  | nil => simp [List.takeWhile, List.dropWhile, hb]
  | cons c cs ih =>
    have hc : p c = true := ha c (List.mem_cons_self _ _)
    have := ih (fun x hx => ha x (List.mem_cons_of_mem _ hx))
    simp [List.takeWhile, List.dropWhile, hc, this]

theorem parseOrderBy_text (col dir : String) (rest : List Char)
    (hcol : ∀ c ∈ col.data, (c != ' ') = true) (hdir : ∀ c ∈ dir.data, (c != '\n') = true) :
    parseOrderBy ("\n    ORDER BY ".data ++ (col.data ++ (' ' :: (dir.data ++ '\n' :: rest))))
      = some (col, dir, '\n' :: rest) := by
  unfold parseOrderBy
  rw [stripHead_append]
  have h1 := takeWhile_append_stop (fun c => c != ' ') col.data (dir.data ++ '\n' :: rest) ' '
    hcol (by decide)
  have h2 := takeWhile_append_stop (fun c => c != '\n') dir.data rest '\n' hdir (by decide)
  simp only [h1.1, h1.2]
  have h3 : stripHead [' '] (' ' :: (dir.data ++ '\n' :: rest))
      = some (dir.data ++ '\n' :: rest) := stripHead_append [' '] _
  simp only [h3, h2.1, h2.2]

/-- The reader recovers the parts a list statement was written from. -/
theorem parse_listSql (wb : Bool) (col dir : String)
    (hcol : ∀ c ∈ col.data, (c != ' ') = true) (hdir : ∀ c ∈ dir.data, (c != '\n') = true) :
    parseListSql (listSql (if wb then "WHERE completed = $1" else "") col dir (if wb then 3 else 2))
      = some ⟨if wb then some 1 else none, col, dir, if wb then 2 else 1, if wb then 3 else 2⟩ := by
  unfold parseListSql
  rw [listSql_data, stripHead_append]
  have e2 : ∀ X, "\n    LIMIT $".data ++ X = '\n' :: ("    LIMIT $".data ++ X) := fun X => rfl
  cases wb
  · have e1 : ∀ X, parseWhere ("".data ++ ("\n    ORDER BY ".data ++ X))
        = (none, "\n    ORDER BY ".data ++ X) := fun X => rfl
    simp only [Bool.false_eq_true, if_false, e1]
    rw [e2, parseOrderBy_text col dir _ hcol hdir]
    rfl
  · have e1 : ∀ X, parseWhere ("WHERE completed = $1".data ++ ("\n    ORDER BY ".data ++ X))
        = (some 1, "\n    ORDER BY ".data ++ X) := fun X => rfl
    simp only [if_true, e1]
    rw [e2, parseOrderBy_text col dir _ hcol hdir]
    rfl

theorem column_no_blank (col : String) (h : col ∈ validSortBy) :
    ∀ c ∈ col.data, (c != ' ') = true := by
  simp only [validSortBy, List.mem_cons, List.mem_singleton, List.not_mem_nil, or_false] at h
  rcases h with h | h | h <;> subst h <;> decide

theorem lower_no_break (dir : String) (h : toLowerCase dir ∈ validSortOrder) :
    ∀ c ∈ dir.data, (c != '\n') = true := by
  intro c hc
  have hm : Char.toLower c ∈ (toLowerCase dir).data := by
    simp only [toLowerCase]
    exact List.mem_map_of_mem _ hc
  by_contra hne
  have hceq : c = '\n' := by simpa using hne
  subst hceq
  simp only [validSortOrder, List.mem_cons, List.mem_singleton, List.not_mem_nil, or_false] at h
  rcases h with h | h <;> rw [h] at hm <;> revert hm <;> decide

theorem orderByOf_mem (v : JSVal) : (orderByOf v).toStr ∈ validSortBy := by
  unfold orderByOf
  split
  · rename_i h
    cases v <;> simp [setHas] at h
    simpa [JSVal.toStr] using h
  · decide

theorem directionOf_lower (v : JSVal) : toLowerCase (directionOf v).toStr ∈ validSortOrder := by
  unfold directionOf
  split
  · rename_i h
    simpa [setHas] using h
  · decide

theorem whereSql_eq (c : JSVal) :
    whereSqlOf (whereClauses c) = if c.isBoolean then "WHERE completed = $1" else "" := by
  cases h : c.isBoolean
  · simp [whereClauses, whereSqlOf, h]
  · simp only [whereClauses, completedValues, h, if_true, List.length_singleton]
    decide

/-- The text `getTasks` writes, in terms of the three things it depends on. -/
theorem getTasksCall_sql (arg : Option Filter) :
    (getTasksCall arg).sql =
      listSql (if (arg.getD {}).completed.isBoolean then "WHERE completed = $1" else "")
        (orderByOf (orDefault (arg.getD {}).sortBy (.str "created_at"))).toStr
        (directionOf (orDefault (arg.getD {}).sortOrder (.str "desc"))).toStr
        (if (arg.getD {}).completed.isBoolean then 3 else 2) := by
  simp only [getTasksCall, whereSql_eq]
  cases h : (arg.getD {}).completed.isBoolean <;> simp [completedValues, h]

/-- The values `getTasks` binds. -/
theorem getTasksCall_values (arg : Option Filter) :
    (getTasksCall arg).values =
      completedValues (arg.getD {}).completed ++
        [orDefault (arg.getD {}).limit (.num 50),
         jsMul (jsSub (orDefault (arg.getD {}).page (.num 1)) (.num 1))
           (orDefault (arg.getD {}).limit (.num 50))] := by
  simp [getTasksCall]

/-- Reading the text of `getTasks` back gives its column and direction. -/
theorem parse_getTasksCall (arg : Option Filter) :
    parseListSql (getTasksCall arg).sql =
      some ⟨if (arg.getD {}).completed.isBoolean then some 1 else none,
        (orderByOf (orDefault (arg.getD {}).sortBy (.str "created_at"))).toStr,
        (directionOf (orDefault (arg.getD {}).sortOrder (.str "desc"))).toStr,
        if (arg.getD {}).completed.isBoolean then 2 else 1,
        if (arg.getD {}).completed.isBoolean then 3 else 2⟩ := by
  rw [getTasksCall_sql]
  exact parse_listSql _ _ _ (column_no_blank _ (orderByOf_mem _))
    (lower_no_break _ (directionOf_lower _))

theorem toLower_cases (c x : Char) (h : Char.toLower c = x) :
    c = x ∨ c = Char.ofNat (x.toNat - 32) := by
  unfold Char.toLower at h
  simp only at h
  split at h
  · right
    rename_i hr
    obtain ⟨n, hn, hc⟩ : ∃ n, n = c.toNat ∧ c = Char.ofNat n :=
      ⟨c.toNat, rfl, (Char.ofNat_toNat c).symm⟩
    rw [← hn] at hr h
    subst hc
    subst h
    obtain ⟨h1, h2⟩ := hr
    clear hn
    interval_cases n <;> decide
  · left; exact h

/-- A text that lower-cases to `asc` or `desc` is one of their 24 spellings. -/
theorem spelling_of_lower (s : String) (h : toLowerCase s ∈ validSortOrder) :
    s ∈ directionSpellings := by
  simp only [validSortOrder, List.mem_cons, List.mem_singleton, List.not_mem_nil, or_false] at h
  obtain ⟨cs⟩ := s
  simp only [toLowerCase] at h
  rcases h with h | h
  · have h' : cs.map Char.toLower = ['a', 's', 'c'] := by
      have := congrArg String.data h
      simpa using this
    rcases cs with _ | ⟨c1, _ | ⟨c2, _ | ⟨c3, _ | ⟨c4, cs⟩⟩⟩⟩ <;>
      simp only [List.map, List.cons.injEq, and_true, reduceCtorEq, and_false] at h'
    obtain ⟨e1, e2, e3⟩ := h'
    rcases toLower_cases _ _ e1 with r1 | r1 <;> rcases toLower_cases _ _ e2 with r2 | r2 <;>
      rcases toLower_cases _ _ e3 with r3 | r3 <;> subst r1 <;> subst r2 <;> subst r3 <;> decide
  · have h' : cs.map Char.toLower = ['d', 'e', 's', 'c'] := by
      have := congrArg String.data h
      simpa using this
    rcases cs with _ | ⟨c1, _ | ⟨c2, _ | ⟨c3, _ | ⟨c4, _ | ⟨c5, cs⟩⟩⟩⟩⟩ <;>
      simp only [List.map, List.cons.injEq, and_true, reduceCtorEq, and_false] at h'
    obtain ⟨e1, e2, e3, e4⟩ := h'
    rcases toLower_cases _ _ e1 with r1 | r1 <;> rcases toLower_cases _ _ e2 with r2 | r2 <;>
      rcases toLower_cases _ _ e3 with r3 | r3 <;> rcases toLower_cases _ _ e4 with r4 | r4 <;>
      subst r1 <;> subst r2 <;> subst r3 <;> subst r4 <;> decide

/-- The values bound to the placeholders of LIMIT and OFFSET. -/
theorem getTasksCall_bound (arg : Option Filter) :
    boundValue (getTasksCall arg).values (if (arg.getD {}).completed.isBoolean then 2 else 1)
        = some (orDefault (arg.getD {}).limit (.num 50)) ∧
      boundValue (getTasksCall arg).values (if (arg.getD {}).completed.isBoolean then 3 else 2)
        = some (jsMul (jsSub (orDefault (arg.getD {}).page (.num 1)) (.num 1))
            (orDefault (arg.getD {}).limit (.num 50))) := by
  rw [getTasksCall_values]
  cases h : (arg.getD {}).completed.isBoolean <;> simp [completedValues, h, boundValue]

/-! ## C1: the text of the list statement -/

/-- C1, counterexample: for the sort order `DESC` the text `getTasks` sends is
none of the texts with a column of the allow-list and one of the two
allow-listed directions `asc` and `desc`: the caller's own spelling is in it. -/
theorem getTasks_text_not_allow_listed :
    ¬ ∃ col ∈ validSortBy, ∃ dir ∈ validSortOrder, ∃ w ∈ ["", "WHERE completed = $1"],
        ∃ n ∈ [2, 3],
          (getTasksCall (some { sortOrder := .str "DESC" })).sql = listSql w col dir n := by
  decide

/-- C1, amended: for every argument of `getTasks` the text sent to the store is
one of the two fixed templates (with `WHERE completed = $1` exactly when
completed is a boolean) filled with a column of the allow-list and with one of
the 24 upper/lower-case spellings of `asc` and `desc`; the text does not depend
on page, on limit or on the value of completed, which are sent as bound values
only. -/
theorem getTasks_text_fixed (arg : Option Filter) :
    (∃ col ∈ validSortBy, ∃ dir ∈ directionSpellings,
        toLowerCase dir ∈ validSortOrder ∧
        (getTasksCall arg).sql =
          listSql (if (arg.getD {}).completed.isBoolean then "WHERE completed = $1" else "")
            col dir (if (arg.getD {}).completed.isBoolean then 3 else 2)) ∧
      (getTasksCall arg).values =
        completedValues (arg.getD {}).completed ++
          [orDefault (arg.getD {}).limit (.num 50),
           jsMul (jsSub (orDefault (arg.getD {}).page (.num 1)) (.num 1))
             (orDefault (arg.getD {}).limit (.num 50))] ∧
      (getTasksCall arg).sql =
        (getTasksCall (some
          { sortBy := (arg.getD {}).sortBy, sortOrder := (arg.getD {}).sortOrder,
            completed := if (arg.getD {}).completed.isBoolean then .bool true
              else .undefined })).sql := by
  refine ⟨⟨_, orderByOf_mem _, _, spelling_of_lower _ (directionOf_lower _),
    directionOf_lower _, getTasksCall_sql arg⟩, getTasksCall_values arg, ?_⟩
  rw [getTasksCall_sql, getTasksCall_sql]
  cases h : (arg.getD {}).completed.isBoolean <;> simp [JSVal.isBoolean]

/-! ## C2: the sort column -/

/-- C2: for every argument of `getTasks` the statement can be read back from
the text (the request is never rejected), and its ORDER BY column is sortBy
itself when sortBy is exactly one of `created_at`, `updated_at`, `title`, and
`created_at` otherwise, also when sortBy is omitted; sortBy `title` with
sortOrder `asc` gives a text in which `ORDER BY title asc` occurs. -/
theorem getTasks_orders_by_sortBy (arg : Option Filter) :
    (∃ st, parseListSql (getTasksCall arg).sql = some st ∧
        (((arg.getD {}).sortBy = .str st.column ∧
            st.column ∈ ["created_at", "updated_at", "title"]) ∨
          (st.column = "created_at" ∧
            (arg.getD {}).sortBy ∉ [JSVal.str "created_at", .str "updated_at", .str "title"]))) ∧
      Occurs "ORDER BY title asc"
        (getTasksCall (some { sortBy := .str "title", sortOrder := .str "asc" })).sql := by
  refine ⟨⟨_, parse_getTasksCall arg, ?_⟩, ?_⟩
  · simp only
    generalize (arg.getD {}).sortBy = v
    cases v with
    | str s =>
      by_cases hs : s ∈ ["created_at", "updated_at", "title"]
      · left
        have : setHas validSortBy (.str s) = true := by simpa [setHas, validSortBy] using hs
        simp [orDefault, orderByOf, this, JSVal.toStr, hs]
      · right
        have : setHas validSortBy (.str s) = false := by simpa [setHas, validSortBy] using hs
        refine ⟨by simp [orDefault, orderByOf, this, JSVal.toStr], ?_⟩
        simpa using hs
    | _ => right; exact ⟨by simp [orDefault, orderByOf, setHas, JSVal.toStr], by simp⟩
  · exact ⟨"\n    SELECT id, title, completed, created_at, updated_at\n    FROM tasks\n    \n    ",
      "\n    LIMIT $1 OFFSET $2\n  ", by decide⟩

/-! ## C3: the sort direction -/

/-- C3, counterexample: the sort order `ASC` is not exactly `asc` or `desc`,
yet the direction of the generated ORDER BY clause is `ASC`, not the default
`desc`. -/
theorem getTasks_keeps_upper_case_direction :
    JSVal.str "ASC" ∉ [JSVal.str "asc", .str "desc"] ∧
      (parseListSql (getTasksCall (some { sortOrder := .str "ASC" })).sql).map
          (fun st => st.direction) = some "ASC" ∧
      (parseListSql (getTasksCall (some { sortOrder := .str "ASC" })).sql).map
          (fun st => st.direction) ≠ some "desc" := by
  decide

/-- C3, amended: for every argument of `getTasks` the direction of the
generated ORDER BY clause is the text of sortOrder as the caller spelled it
when that text, put in lower case, is `asc` or `desc`, and the default `desc`
otherwise (also when sortOrder is omitted); `asc` and `desc` themselves are
used as given. -/
theorem getTasks_direction (arg : Option Filter) :
    (∃ st, parseListSql (getTasksCall arg).sql = some st ∧
        st.direction =
          if toLowerCase (orDefault (arg.getD {}).sortOrder (.str "desc")).toStr ∈ validSortOrder
          then (orDefault (arg.getD {}).sortOrder (.str "desc")).toStr
          else "desc") ∧
      (parseListSql (getTasksCall (some { sortOrder := .str "asc" })).sql).map
          (fun st => st.direction) = some "asc" ∧
      (parseListSql (getTasksCall (some { sortOrder := .str "desc" })).sql).map
          (fun st => st.direction) = some "desc" := by
  refine ⟨⟨_, parse_getTasksCall arg, ?_⟩, by decide, by decide⟩
  simp only [directionOf, setHas]
  by_cases h : toLowerCase (orDefault (arg.getD {}).sortOrder (.str "desc")).toStr
      ∈ validSortOrder
  · have hc : validSortOrder.contains
        (toLowerCase (orDefault (arg.getD {}).sortOrder (.str "desc")).toStr) = true := by
      simpa using h
    rw [if_pos hc, if_pos h]
  · have hc : ¬ validSortOrder.contains
        (toLowerCase (orDefault (arg.getD {}).sortOrder (.str "desc")).toStr) = true := by
      simpa using h
    rw [if_neg hc, if_neg h]
    rfl


/-! ## The list statement on the modelled store -/

/-- The modelled store reads the statement of `getTasks` as a list statement. -/
theorem pgQuery_getTasksCall (db : Db) (arg : Option Filter) :
    pgQuery db (getTasksCall arg).sql (getTasksCall arg).values =
      (runList db
        ⟨if (arg.getD {}).completed.isBoolean then some 1 else none,
          (orderByOf (orDefault (arg.getD {}).sortBy (.str "created_at"))).toStr,
          (directionOf (orDefault (arg.getD {}).sortOrder (.str "desc"))).toStr,
          if (arg.getD {}).completed.isBoolean then 2 else 1,
          if (arg.getD {}).completed.isBoolean then 3 else 2⟩
        (getTasksCall arg).values, db) := by
  simp only [pgQuery, parse_getTasksCall]

/-- An integer of magnitude at most `2 ^ 53` is a double. -/
theorem roundDyadic_exact (m : Int) (h : m.natAbs ≤ 2 ^ 53) : roundDyadic m 0 = .num m := by
  unfold roundDyadic
  rw [if_pos ⟨rfl, h⟩]

theorem jsSub_num (a b : Int) : jsSub (.num a) (.num b) = roundDyadic (a - b) 0 := rfl

theorem jsMul_num (a b : Int) : jsMul (.num a) (.num b) = roundDyadic (a * b) 0 := rfl

/-- Within the safe integers the offset is the exact product. -/
theorem offset_exact (P L : Int) (hP : isSafeInteger P = true)
    (hO : isSafeInteger ((P - 1) * L) = true) :
    jsMul (jsSub (.num P) (.num 1)) (.num L) = .num ((P - 1) * L) := by
  simp only [isSafeInteger, decide_eq_true_eq] at hP hO
  have h1 : (P - 1).natAbs ≤ 2 ^ 53 := by omega
  rw [jsSub_num, roundDyadic_exact _ h1, jsMul_num, roundDyadic_exact _ (by omega)]

theorem countParam_safe (n : Int) (h : isSafeInteger n = true) :
    countParam (.num n) = some (some n) := by
  simp only [isSafeInteger, decide_eq_true_eq] at h
  have h1 : n.natAbs ≤ 2 ^ 53 := by omega
  show (if n.natAbs ≤ 2 ^ 53 then some (some n) else _) = _
  rw [if_pos h1]

/-- The rows a list statement resolves to, for every value bound to LIMIT and
to OFFSET. -/
theorem runList_window (db : Db) (c : JSVal) (col dir : String) (hcol : col ∈ validSortBy)
    (hdir : toLowerCase dir ∈ validSortOrder) (limit offset : JSVal) :
    runList db
        ⟨if c.isBoolean then some 1 else none, col, dir,
          if c.isBoolean then 2 else 1, if c.isBoolean then 3 else 2⟩
        (completedValues c ++ [limit, offset]) =
      match countParam limit, countParam offset with
      | some l, some o =>
        (match cutWindow (selectRows db.rows c.asBool? col dir) l o with
         | .ok rows => .ok { rows := rows, rowCount := rows.length }
         | .error e => .error e)
      | _, _ => .error "invalid parameter" := by
  have h1 : ["id", "title", "completed", "created_at", "updated_at"].contains col = true := by
    simp only [validSortBy, List.mem_cons, List.mem_singleton, List.not_mem_nil, or_false] at hcol
    rcases hcol with h | h | h <;> subst h <;> decide
  have h2 : validSortOrder.contains (toLowerCase dir) = true := by simpa using hdir
  unfold runList
  simp only [h1, h2, Bool.not_true, Bool.false_eq_true, if_false]
  cases c <;> simp [JSVal.isBoolean, completedValues, boundValue, JSVal.asBool?] <;>
    cases countParam limit <;> cases countParam offset <;> simp

/-- The outcome of `getTasks` on the modelled store, for every filter: the
window that the values bound to LIMIT and OFFSET cut from the filtered,
ordered rows. -/
theorem getTasks_pg (f : Filter) (db : Db) (calls : List SqlCall) :
    (getTasks pgPool (some f) ⟨db, calls⟩).1 =
      match countParam (orDefault f.limit (.num 50)),
        countParam (jsMul (jsSub (orDefault f.page (.num 1)) (.num 1))
          (orDefault f.limit (.num 50))) with
      | some l, some o =>
        cutWindow (selectRows db.rows f.completed.asBool?
          (orderByOf (orDefault f.sortBy (.str "created_at"))).toStr
          (directionOf (orDefault f.sortOrder (.str "desc"))).toStr) l o
      | _, _ => .error "invalid parameter" := by
  unfold getTasks poolQuery
  simp only [pgPool, pgQuery_getTasksCall]
  simp only [Option.getD_some, getTasksCall_values]
  rw [runList_window db f.completed _ _ (orderByOf_mem _) (directionOf_lower _)]
  cases countParam (orDefault f.limit (.num 50)) <;>
    cases countParam (jsMul (jsSub (orDefault f.page (.num 1)) (.num 1))
      (orDefault f.limit (.num 50))) <;> try rfl
  rename_i l o
  simp only []
  generalize cutWindow _ l o = cw
  cases cw <;> rfl

/-- The outcome of `getTasks` on the modelled store for a page and a limit
within the safe integers. -/
theorem getTasks_pg_safe (P L : Int) (c sb so : JSVal) (db : Db) (calls : List SqlCall)
    (hP : isSafeInteger P = true) (hL : isSafeInteger L = true)
    (hO : isSafeInteger ((P - 1) * L) = true) :
    (getTasks pgPool (some ⟨.num P, .num L, c, sb, so⟩) ⟨db, calls⟩).1 =
      if (P - 1) * L < 0 then .error "OFFSET must not be negative"
      else if L < 0 then .error "LIMIT must not be negative"
      else .ok (((selectRows db.rows c.asBool?
          (orderByOf (orDefault sb (.str "created_at"))).toStr
          (directionOf (orDefault so (.str "desc"))).toStr).drop ((P - 1) * L).toNat).take L.toNat) := by
  rw [getTasks_pg]
  have e1 : orDefault (JSVal.num P) (.num 1) = .num P := by simp [orDefault]
  have e2 : orDefault (JSVal.num L) (.num 50) = .num L := by simp [orDefault]
  simp only [e1, e2, offset_exact P L hP hO, countParam_safe L hL, countParam_safe _ hO,
    cutWindow, Option.getD_some]

theorem mem_selectRows (rows : List Task) (c : Option Bool) (col dir : String) (t : Task) :
    t ∈ selectRows rows c col dir ↔
      t ∈ (match c with
        | some b => rows.filter (fun t : Task => t.completed == b)
        | none => rows) := by
  unfold selectRows orderRows
  split <;> exact (List.perm_insertionSort _ _).mem_iff

theorem selectRows_none_perm (rows : List Task) (col dir : String) :
    (selectRows rows none col dir).Perm rows := by
  unfold selectRows orderRows
  split <;> exact List.perm_insertionSort _ _

/-! ## C4: the window -/

/-- C4, counterexample: page 94906268 with limit 94906267 binds the limit
94906267 and the offset 9007199515875288, which is not `(P - 1) * L`, the
integer 9007199515875289: the product of `page - 1` and `limit` is computed
in doubles and rounded, and the store skips the rows up to the rounded
offset. -/
theorem getTasks_offset_is_rounded :
    (getTasksCall (some { page := .num 94906268, limit := .num 94906267 })).values
        = [.num 94906267, .num 9007199515875288] ∧
      ((94906268 : Int) - 1) * 94906267 = 9007199515875289 ∧
      (getTasksCall (some { page := .num 94906268, limit := .num 94906267 })).values
        ≠ [.num 94906267, .num ((94906268 - 1) * 94906267)] ∧
      (getTasks pgPool (some { page := .num 94906268, limit := .num 94906267 })
          ⟨⟨[⟨"a", "x", false, 0, 0⟩], 1, 1⟩, []⟩).1 = .ok [] := by
  decide

/-- C4, amended: for every page `P` and limit `L` that are safe integers with
`(P - 1) * L` a safe integer too, the value bound to the placeholder of LIMIT
is `L` and the value bound to the placeholder of OFFSET is `(P - 1) * L`; on
the store the call resolves to the rows of the filtered, ordered table from
offset `(P - 1) * L` on, at most `L` of them (the store rejects a negative
OFFSET or LIMIT and returns nothing); page 2 with limit 20 binds limit 20 and
offset 20. -/
theorem getTasks_window (P L : Int) (c sb so : JSVal) (db : Db) (calls : List SqlCall)
    (hP : isSafeInteger P = true) (hL : isSafeInteger L = true)
    (hO : isSafeInteger ((P - 1) * L) = true) :
    (∃ st,
        parseListSql (getTasksCall (some ⟨.num P, .num L, c, sb, so⟩)).sql = some st ∧
        boundValue (getTasksCall (some ⟨.num P, .num L, c, sb, so⟩)).values st.limitPh
          = some (.num L) ∧
        boundValue (getTasksCall (some ⟨.num P, .num L, c, sb, so⟩)).values st.offsetPh
          = some (.num ((P - 1) * L))) ∧
      (getTasks pgPool (some ⟨.num P, .num L, c, sb, so⟩) ⟨db, calls⟩).1 =
        (if (P - 1) * L < 0 then .error "OFFSET must not be negative"
         else if L < 0 then .error "LIMIT must not be negative"
         else .ok (((selectRows db.rows c.asBool?
            (orderByOf (orDefault sb (.str "created_at"))).toStr
            (directionOf (orDefault so (.str "desc"))).toStr).drop
              ((P - 1) * L).toNat).take L.toNat)) ∧
      (((selectRows db.rows c.asBool?
            (orderByOf (orDefault sb (.str "created_at"))).toStr
            (directionOf (orDefault so (.str "desc"))).toStr).drop
              ((P - 1) * L).toNat).take L.toNat).length ≤ L.toNat ∧
      (getTasksCall (some { page := .num 2, limit := .num 20 })).values
        = [.num 20, .num 20] := by
  refine ⟨⟨_, parse_getTasksCall _, ?_⟩, getTasks_pg_safe P L c sb so db calls hP hL hO,
    List.length_take_le _ _, by decide⟩
  have h := getTasksCall_bound (some ⟨.num P, .num L, c, sb, so⟩)
  have e1 : orDefault (JSVal.num P) (.num 1) = .num P := by simp [orDefault]
  have e2 : orDefault (JSVal.num L) (.num 50) = .num L := by simp [orDefault]
  simpa only [Option.getD_some, e1, e2, offset_exact P L hP hO] using h

/-- C4, amended, at an input: page 2 with limit 1 on a table of three tasks
resolves to the second task of the ordering, the one row from offset 1 on. -/
theorem getTasks_window_witness :
    (getTasks pgPool (some ⟨.num 2, .num 1, .undefined, .str "title", .str "asc"⟩)
        ⟨⟨[⟨"a", "x", false, 0, 0⟩, ⟨"b", "z", true, 1, 1⟩, ⟨"c", "y", true, 2, 2⟩], 3, 1⟩,
          []⟩).1 = .ok [⟨"c", "y", true, 2, 2⟩] :=
  (getTasks_window 2 1 .undefined (.str "title") (.str "asc")
    ⟨[⟨"a", "x", false, 0, 0⟩, ⟨"b", "z", true, 1, 1⟩, ⟨"c", "y", true, 2, 2⟩], 3, 1⟩ []
    (by decide) (by decide) (by decide)).2.1.trans (by decide)

/-! ## C5: page and limit are not validated -/

/-- C5, counterexample: the query `page=0` reaches the store with LIMIT 10 and
OFFSET -10, a negative offset, which the store rejects; so does the filter
with page 0 given to `getTasks` itself, and a limit of 0 is bound as it is. -/
theorem listTasks_page_zero_negative_offset :
    (getTasksCall (some (listTasksFilter { page := .str "0" }))).values
        = [.num 10, .num (-10)] ∧
      validWindow (getTasksCall (some (listTasksFilter { page := .str "0" }))).values = false ∧
      (listTasks pgPool { page := .str "0" } ⟨⟨[], 0, 0⟩, []⟩).1
        = .error "OFFSET must not be negative" ∧
      (getTasksCall (some { page := .num 0 })).values = [.num 50, .num (-50)] ∧
      (getTasksCall (some { limit := .num 0 })).values = [.num 0, .num 0] := by
  decide

theorem truthy_of_toNumber_pos (v : JSVal) (n : Int) (hn : 1 ≤ n) (h : v.toNumber = .num n) :
    v.truthy = true := by
  cases v with
  | undefined => simp [JSVal.toNumber] at h
  | null => simp [JSVal.toNumber] at h; omega
  | bool b => cases b <;> simp [JSVal.toNumber] at h <;> simp [JSVal.truthy]; omega
  | num m => simp [JSVal.toNumber] at h; simp [JSVal.truthy]; omega
  | frac m k => rfl
  | inf b => rfl
  | nan => simp [JSVal.toNumber] at h
  | str s =>
    simp only [JSVal.truthy, bne_iff_ne, ne_eq]
    intro hs
    subst hs
    have : stringToNumber "" = .num 0 := by decide
    simp [JSVal.toNumber, this] at h
    omega
  | obj t => rfl

theorem validWindow_append (vs : List JSVal) (l o : Int) (hl : 1 ≤ l) (ho : 0 ≤ o) :
    validWindow (vs ++ [.num l, .num o]) = true := by
  simp [validWindow, hl, ho]

/-- A filter whose page and limit resolve to safe integers at least 1, with a
safe offset, has a valid window, and the store accepts the statement. -/
theorem window_accepted (g : Filter) (p l : Int) (db : Db) (calls : List SqlCall)
    (h1 : 1 ≤ p) (h2 : 1 ≤ l) (sp : isSafeInteger p = true) (sl : isSafeInteger l = true)
    (so : isSafeInteger ((p - 1) * l) = true)
    (e1 : orDefault g.page (.num 1) = .num p) (e2 : orDefault g.limit (.num 50) = .num l) :
    validWindow (getTasksCall (some g)).values = true ∧
      ∃ rows, (getTasks pgPool (some g) ⟨db, calls⟩).1 = .ok rows ∧ rows.length ≤ l.toNat := by
  have hpos : 0 ≤ (p - 1) * l := Int.mul_nonneg (by omega) (by omega)
  constructor
  · rw [getTasksCall_values]
    simp only [Option.getD_some, e1, e2, offset_exact p l sp so]
    exact validWindow_append _ _ _ h2 hpos
  · rw [getTasks_pg]
    simp only [e1, e2, offset_exact p l sp so, countParam_safe l sl, countParam_safe _ so,
      cutWindow, Option.getD_some]
    rw [if_neg (by omega), if_neg (by omega)]
    exact ⟨_, rfl, List.length_take_le _ _⟩

/-- C5, amended: for every filter given to `getTasks` whose page and limit are
each omitted or a safe integer at least 1, and for every query given to
`listTasks` whose page and limit are each absent or convert to a safe integer
at least 1, with the offset `(page - 1) * limit` a safe integer too, the value
bound to LIMIT is an integer at least 1 and the value bound to OFFSET is an
integer that is not negative, and the store accepts the window: the call
resolves to at most limit rows. -/
theorem window_valid_of_positive (f : Filter) (q : Query) (p l p2 l2 : Int) (db : Db)
    (calls : List SqlCall)
    (hp : 1 ≤ p ∧ isSafeInteger p = true) (hl : 1 ≤ l ∧ isSafeInteger l = true)
    (ho : isSafeInteger ((p - 1) * l) = true)
    (hfp : orDefault f.page (.num 1) = .num p) (hfl : orDefault f.limit (.num 50) = .num l)
    (hp2 : 1 ≤ p2 ∧ isSafeInteger p2 = true) (hl2 : 1 ≤ l2 ∧ isSafeInteger l2 = true)
    (ho2 : isSafeInteger ((p2 - 1) * l2) = true)
    (hqp : (orDefault q.page (.num 1)).toNumber = .num p2)
    (hql : (orDefault q.limit (.num 10)).toNumber = .num l2) :
    (validWindow (getTasksCall (some f)).values = true ∧
        ∃ rows, (getTasks pgPool (some f) ⟨db, calls⟩).1 = .ok rows ∧ rows.length ≤ l.toNat) ∧
      (validWindow (getTasksCall (some (listTasksFilter q))).values = true ∧
        ∃ rows, (listTasks pgPool q ⟨db, calls⟩).1 = .ok ⟨200, rows⟩ ∧
          rows.length ≤ l2.toNat) := by
  refine ⟨window_accepted f p l db calls hp.1 hl.1 hp.2 hl.2 ho hfp hfl, ?_⟩
  have tp := truthy_of_toNumber_pos _ p2 hp2.1 hqp
  have tl := truthy_of_toNumber_pos _ l2 hl2.1 hql
  have e1 : (listTasksFilter q).page = .num p2 := by
    show (if (orDefault q.page (.num 1)).truthy then (orDefault q.page (.num 1)).toNumber
      else .undefined) = .num p2
    rw [if_pos tp, hqp]
  have e2 : (listTasksFilter q).limit = .num l2 := by
    show (if (orDefault q.limit (.num 10)).truthy then (orDefault q.limit (.num 10)).toNumber
      else .undefined) = .num l2
    rw [if_pos tl, hql]
  obtain ⟨v, rows, hr, hlen⟩ := window_accepted (listTasksFilter q) p2 l2 db calls hp2.1 hl2.1
    hp2.2 hl2.2 ho2 (by rw [e1]; rfl) (by rw [e2]; rfl)
  refine ⟨v, rows, ?_, hlen⟩
  unfold listTasks
  cases hg : getTasks pgPool (some (listTasksFilter q)) ⟨db, calls⟩ with
  | mk r w1 =>
    rw [hg] at hr
    simp only at hr
    subst hr
    rfl

/-- C5, amended, at an input: the filter with page 2 and limit 20 and the query
`page=1e1&limit=2.0`, whose values convert to 10 and 2. -/
theorem window_valid_of_positive_witness :
    (validWindow (getTasksCall (some { page := .num 2, limit := .num 20 })).values = true ∧
        ∃ rows, (getTasks pgPool (some { page := .num 2, limit := .num 20 })
            ⟨⟨[⟨"a", "x", false, 0, 0⟩], 1, 1⟩, []⟩).1 = .ok rows ∧
          rows.length ≤ (20 : Int).toNat) ∧
      (validWindow (getTasksCall (some (listTasksFilter
          { page := .str "1e1", limit := .str "2.0" }))).values = true ∧
        ∃ rows, (listTasks pgPool { page := .str "1e1", limit := .str "2.0" }
            ⟨⟨[⟨"a", "x", false, 0, 0⟩], 1, 1⟩, []⟩).1 = .ok ⟨200, rows⟩ ∧
          rows.length ≤ (2 : Int).toNat) :=
  window_valid_of_positive { page := .num 2, limit := .num 20 }
    { page := .str "1e1", limit := .str "2.0" } 2 20 10 2 ⟨[⟨"a", "x", false, 0, 0⟩], 1, 1⟩ []
    ⟨by decide, by decide⟩ ⟨by decide, by decide⟩ (by decide) rfl rfl
    ⟨by decide, by decide⟩ ⟨by decide, by decide⟩ (by decide) (by decide) (by decide)

/-! ## C6: the defaults of page and limit -/

/-- C6, counterexample: called with no argument, `getTasks` binds 50 to LIMIT,
not 10. -/
theorem getTasks_default_limit_is_fifty :
    (getTasksCall none).values = [.num 50, .num 0] ∧
      (getTasksCall none).values ≠ [.num 10, .num 0] ∧
      (getTasksCall (some {})).values = [.num 50, .num 0] := by
  decide

/-- C6, amended: when the filter given to `getTasks` omits page and limit, and
when `getTasks` is called with no argument, it uses page 1 and limit 50: the
value bound to the placeholder of LIMIT is 50 and the one bound to the
placeholder of OFFSET is 0.  The limit 10 is the default of `listTasks`: for a
query without page and limit the values bound are 10 and 0. -/
theorem getTasks_default_window (c sb so : JSVal) :
    (∃ st,
        parseListSql (getTasksCall (some ⟨.undefined, .undefined, c, sb, so⟩)).sql = some st ∧
        boundValue (getTasksCall (some ⟨.undefined, .undefined, c, sb, so⟩)).values st.limitPh
          = some (.num 50) ∧
        boundValue (getTasksCall (some ⟨.undefined, .undefined, c, sb, so⟩)).values st.offsetPh
          = some (.num 0)) ∧
      (∃ st,
        parseListSql (getTasksCall none).sql = some st ∧
        boundValue (getTasksCall none).values st.limitPh = some (.num 50) ∧
        boundValue (getTasksCall none).values st.offsetPh = some (.num 0)) ∧
      (∃ st,
        parseListSql (getTasksCall (some (listTasksFilter
          ⟨.undefined, .undefined, c, sb, so⟩))).sql = some st ∧
        boundValue (getTasksCall (some (listTasksFilter
          ⟨.undefined, .undefined, c, sb, so⟩))).values st.limitPh = some (.num 10) ∧
        boundValue (getTasksCall (some (listTasksFilter
          ⟨.undefined, .undefined, c, sb, so⟩))).values st.offsetPh = some (.num 0)) := by
  refine ⟨⟨_, parse_getTasksCall _, ?_⟩, ⟨_, parse_getTasksCall _, ?_⟩,
    ⟨_, parse_getTasksCall _, ?_⟩⟩
  · have h := getTasksCall_bound (some ⟨.undefined, .undefined, c, sb, so⟩)
    simpa [orDefault, jsMul, jsSub, JSVal.toNumber] using h
  · decide
  · have h := getTasksCall_bound (some (listTasksFilter ⟨.undefined, .undefined, c, sb, so⟩))
    simpa [listTasksFilter, orDefault, jsMul, jsSub, JSVal.toNumber, JSVal.truthy] using h


/-! ## C7: the completed parameter of the query -/

/-- C7, counterexample: the query value `completed=yes` is no valid boolean,
yet `listTasks` passes completed = false, not undefined, and the store is asked
for, and returns, the tasks that are not completed only. -/
theorem listTasks_invalid_completed_filters :
    (listTasksFilter { completed := .str "yes" }).completed = .bool false ∧
      (listTasksFilter { completed := .str "yes" }).completed ≠ .undefined ∧
      (getTasksCall (some (listTasksFilter { completed := .str "yes" }))).values
        = [.bool false, .num 10, .num 0] ∧
      (listTasks pgPool { completed := .str "yes" }
          ⟨⟨[⟨"a", "x", true, 0, 0⟩, ⟨"b", "y", false, 1, 1⟩], 2, 1⟩, []⟩).1
        = .ok ⟨200, [⟨"b", "y", false, 1, 1⟩]⟩ := by
  decide

/-- C7, amended: for every query, `listTasks` builds a statement (it never
rejects the request); when the completed query value is not a string (absent,
or an array or object) it passes completed = undefined and the statement has
no completed filter; when it is a string it passes the boolean
`completed === 'true'`, true for `true` and false for every other string, and
the statement filters on that boolean. -/
theorem listTasks_completed (q : Query) :
    ∃ st, parseListSql (getTasksCall (some (listTasksFilter q))).sql = some st ∧
      (match q.completed with
       | .str s =>
         (listTasksFilter q).completed = .bool (decide (s = "true")) ∧
           st.wherePh = some 1 ∧
           boundValue (getTasksCall (some (listTasksFilter q))).values 1
             = some (.bool (decide (s = "true")))
       | _ => (listTasksFilter q).completed = .undefined ∧ st.wherePh = none) := by
  refine ⟨_, parse_getTasksCall _, ?_⟩
  rw [getTasksCall_values]
  have hb : ∀ s : String, (JSVal.str s == JSVal.str "true") = decide (s = "true") := by
    intro s
    by_cases h : s = "true" <;> simp [h]
  obtain ⟨p, l, c, sb, so⟩ := q
  cases c <;>
    simp [listTasksFilter, JSVal.isString, JSVal.isBoolean, completedValues, boundValue, hb]

/-! ## C8: the completed filter of `getTasks` -/

/-- The rows of a window are rows of the list it is cut from. -/
theorem mem_of_cutWindow (rows out : List Task) (l o : Option Int)
    (h : cutWindow rows l o = .ok out) : ∀ t ∈ out, t ∈ rows := by
  unfold cutWindow at h
  split at h
  · cases h
  · split at h
    · cases h
    · simp only [Except.ok.injEq] at h
      subst h
      intro t ht
      cases l with
      | none => exact List.mem_of_mem_drop ht
      | some n => exact List.mem_of_mem_drop (List.mem_of_mem_take ht)

/-- C8: for every page, limit, sort column and direction, `getTasks` writes
the clause `WHERE completed = $1` and binds completed as the first value
exactly when completed is a boolean; the rows the store then returns all have
completed equal to that value, whatever the table holds.  When completed is no
boolean the text has no WHERE clause and the rows are cut from an ordering of
the whole table.  Completed true puts true in the bound values. -/
theorem getTasks_completed_filter (page limit c sb so : JSVal) (db : Db)
    (calls : List SqlCall) :
    (∃ col dir,
        (getTasksCall (some ⟨page, limit, c, sb, so⟩)).sql =
          listSql (if c.isBoolean then "WHERE completed = $1" else "") col dir
            (if c.isBoolean then 3 else 2) ∧
        parseListSql (getTasksCall (some ⟨page, limit, c, sb, so⟩)).sql =
          some ⟨if c.isBoolean then some 1 else none, col, dir,
            if c.isBoolean then 2 else 1, if c.isBoolean then 3 else 2⟩ ∧
        (getTasksCall (some ⟨page, limit, c, sb, so⟩)).values =
          (if c.isBoolean then [c] else []) ++
            [orDefault limit (.num 50),
              jsMul (jsSub (orDefault page (.num 1)) (.num 1)) (orDefault limit (.num 50))] ∧
        (getTasks pgPool (some ⟨page, limit, c, sb, so⟩) ⟨db, calls⟩).1 =
          (match countParam (orDefault limit (.num 50)),
            countParam (jsMul (jsSub (orDefault page (.num 1)) (.num 1))
              (orDefault limit (.num 50))) with
           | some l, some o => cutWindow (selectRows db.rows c.asBool? col dir) l o
           | _, _ => .error "invalid parameter") ∧
        (match c.asBool? with
         | some b =>
           ∀ rows, (getTasks pgPool (some ⟨page, limit, c, sb, so⟩) ⟨db, calls⟩).1 = .ok rows →
             ∀ t ∈ rows, t.completed = b
         | none => (selectRows db.rows none col dir).Perm db.rows)) ∧
      JSVal.bool true ∈ (getTasksCall (some { completed := .bool true })).values ∧
      (getTasks pgPool (some { completed := .bool true })
          ⟨⟨[⟨"a", "x", false, 0, 0⟩, ⟨"b", "y", true, 1, 1⟩], 2, 1⟩, []⟩).1
        = .ok [⟨"b", "y", true, 1, 1⟩] := by
  refine ⟨⟨_, _, getTasksCall_sql _, parse_getTasksCall _, ?_,
    getTasks_pg ⟨page, limit, c, sb, so⟩ db calls, ?_⟩, by decide, by decide⟩
  · rw [getTasksCall_values]
    simp [completedValues]
  · cases c <;> simp only [JSVal.asBool?]
    case bool b =>
      intro rows hr t ht
      rw [getTasks_pg] at hr
      simp only [JSVal.asBool?] at hr
      split at hr
      · have h1 := mem_of_cutWindow _ _ _ _ hr t ht
        rw [mem_selectRows] at h1
        simpa using (List.mem_filter.mp h1).2
      · cases hr
    all_goals exact selectRows_none_perm _ _ _

/-! ## The read by id and the update of the flag on the modelled store -/

theorem head?_filter_eq_find? (p : Task → Bool) (rows : List Task) :
    (rows.filter p).head? = rows.find? p := by
  induction rows with
  | nil => rfl
  | cons t ts ih =>
    by_cases h : p t
    · simp [List.filter, List.find?, h]
    · simp [List.filter, List.find?, h, ih]

/-- On the rows with an id, a change of these rows alone is the change. -/
theorem map_filter_id (rows : List Task) (s : String) (f : Task → Task) :
    (rows.filter (fun t => t.id == s)).map f =
      (rows.filter (fun t => t.id == s)).map (fun t => if t.id == s then f t else t) := by
  apply List.map_congr_left
  intro t ht
  have := (List.mem_filter.mp ht).2
  simp only at this
  rw [if_pos this]

theorem pgQuery_select (db : Db) (s : String) :
    pgQuery db sqlSelectById [.str s] =
      (.ok { rows := db.rows.filter (fun t => t.id == s),
             rowCount := (db.rows.filter (fun t => t.id == s)).length }, db) := by
  have h : parseListSql sqlSelectById = none := by decide
  have hp : parseStmt sqlSelectById = some (.selectById 1) := by decide
  simp [pgQuery, h, hp, Stmt.params, boundValue]

theorem pgQuery_patch (db : Db) (b : Bool) (s : String) :
    pgQuery db sqlPatch [.bool b, .str s] =
      (.ok { rows := (db.rows.filter (fun t => t.id == s)).map (patchRow s b),
             rowCount := ((db.rows.filter (fun t => t.id == s)).map (patchRow s b)).length },
        { db with rows := db.rows.map (patchRow s b), now := db.now + 1 }) := by
  have h : parseListSql sqlPatch = none := by decide
  have hp : parseStmt sqlPatch = some (.update [("completed", .param 1)] 2) := by decide
  have hm := map_filter_id db.rows s (fun t => { t with completed := b })
  simp [pgQuery, h, hp, Stmt.params, boundValue, assignments, assignment, hm, patchRow]

theorem find?_patchRow (s : String) (b : Bool) (rows : List Task) :
    (rows.map (patchRow s b)).find? (fun t => t.id == s) =
      (rows.find? (fun t => t.id == s)).map (patchRow s b) := by
  rw [List.find?_map]
  have h : ((fun t : Task => t.id == s) ∘ patchRow s b) = (fun t : Task => t.id == s) := by
    funext t
    simp only [Function.comp, patchRow]
    split <;> rfl
  rw [h]

/-- The update of the flag on the modelled store: one call, resolving to the
first row with the id as it is after the update, or to null. -/
theorem patch_pg_set (db : Db) (s : String) (b : Bool) (calls : List SqlCall) :
    patchTaskCompleted pgPool (.str s) (.bool b) ⟨db, calls⟩ =
      (.ok ((db.rows.find? (fun t => t.id == s)).map (patchRow s b)),
        ⟨{ db with rows := db.rows.map (patchRow s b), now := db.now + 1 },
          calls ++ [⟨sqlPatch, [.bool b, .str s]⟩]⟩) := by
  simp [patchTaskCompleted, JSVal.isBoolean, poolQuery, pgPool, pgQuery_patch,
    List.head?_map, head?_filter_eq_find?]

/-- The toggle on the modelled store. -/
theorem patch_pg_toggle (db : Db) (s : String) (c : JSVal) (hc : c.isBoolean = false)
    (calls : List SqlCall) :
    patchTaskCompleted pgPool (.str s) c ⟨db, calls⟩ =
      match db.rows.find? (fun t => t.id == s) with
      | none => (.ok none, ⟨db, calls ++ [⟨sqlSelectById, [.str s]⟩]⟩)
      | some t =>
        (.ok (some (patchRow s (!t.completed) t)),
          ⟨{ db with rows := db.rows.map (patchRow s (!t.completed)), now := db.now + 1 },
            calls ++ [⟨sqlSelectById, [.str s]⟩, ⟨sqlPatch, [.bool (!t.completed), .str s]⟩]⟩) := by
  simp only [patchTaskCompleted, hc, getTaskById, poolQuery, pgPool, pgQuery_select,
    head?_filter_eq_find?]
  cases hf : db.rows.find? (fun t => t.id == s) with
  | none => simp
  | some t =>
    simp [pgQuery_patch, List.head?_map, head?_filter_eq_find?, hf]

/-! ## C9: the store calls of `patchTaskCompleted` -/

theorem patch_write_general {σ : Type} (pool : Pool σ) (id : JSVal) (b : Bool) (w : World σ) :
    patchTaskCompleted pool id (.bool b) w =
      (Except.map (fun r => r.rows.head?) (pool.query w.db sqlPatch [.bool b, id]).1,
        ⟨(pool.query w.db sqlPatch [.bool b, id]).2,
          w.calls ++ [⟨sqlPatch, [.bool b, id]⟩]⟩) := by
  simp only [patchTaskCompleted, JSVal.isBoolean, poolQuery]
  cases h : (pool.query w.db sqlPatch [.bool b, id]).1 <;> simp [Except.map]

theorem patch_toggle_general {σ : Type} (pool : Pool σ) (id c : JSVal) (hc : c.isBoolean = false)
    (w : World σ) :
    patchTaskCompleted pool id c w =
      match (pool.query w.db sqlSelectById [id]).1 with
      | .error e =>
        (.error e, ⟨(pool.query w.db sqlSelectById [id]).2, w.calls ++ [⟨sqlSelectById, [id]⟩]⟩)
      | .ok r =>
        match r.rows.head? with
        | none =>
          (.ok none,
            ⟨(pool.query w.db sqlSelectById [id]).2, w.calls ++ [⟨sqlSelectById, [id]⟩]⟩)
        | some current =>
          (Except.map (fun r => r.rows.head?)
              (pool.query (pool.query w.db sqlSelectById [id]).2 sqlPatch
                [.bool (!current.completed), id]).1,
            ⟨(pool.query (pool.query w.db sqlSelectById [id]).2 sqlPatch
                [.bool (!current.completed), id]).2,
              w.calls ++ [⟨sqlSelectById, [id]⟩,
                ⟨sqlPatch, [.bool (!current.completed), id]⟩]⟩) := by
  simp only [patchTaskCompleted, hc, getTaskById, poolQuery]
  cases h : (pool.query w.db sqlSelectById [id]).1 with
  | error e => simp
  | ok r =>
    cases h2 : r.rows.head? with
    | none => simp [h2]
    | some current =>
      simp only [Bool.not_false, if_true, h2]
      cases h3 : (pool.query (pool.query w.db sqlSelectById [id]).2 sqlPatch
          [.bool (!current.completed), id]).1 <;> simp [Except.map, h3]

/-- C9: over every pool and for every id, `patchTaskCompleted` with a boolean
issues exactly one store call, the UPDATE binding `[completed, id]`, and
resolves to the first row of its result (the updated row; null when the store
returns none).  With completed omitted (or no boolean) it first issues the
read by id: when the read gives a row it issues exactly one more call, the
UPDATE binding `[!current.completed, id]`, and resolves to the first row of
that result; when the read gives no row it resolves to null after that one
call, and no UPDATE is issued.  On the modelled store the row returned by the
UPDATE is the row with that id as updated, and a toggle that finds no row
leaves the table as it was. -/
theorem patchTaskCompleted_store_calls {σ : Type} (pool : Pool σ) (id completed : JSVal)
    (w : World σ) (db : Db) (s : String) (b : Bool) (calls : List SqlCall) :
    (match completed.asBool? with
     | some v =>
       patchTaskCompleted pool id completed w =
         (Except.map (fun r => r.rows.head?) (pool.query w.db sqlPatch [.bool v, id]).1,
           ⟨(pool.query w.db sqlPatch [.bool v, id]).2,
             w.calls ++ [⟨sqlPatch, [.bool v, id]⟩]⟩)
     | none =>
       patchTaskCompleted pool id completed w =
         match (pool.query w.db sqlSelectById [id]).1 with
         | .error e =>
           (.error e,
             ⟨(pool.query w.db sqlSelectById [id]).2, w.calls ++ [⟨sqlSelectById, [id]⟩]⟩)
         | .ok r =>
           match r.rows.head? with
           | none =>
             (.ok none,
               ⟨(pool.query w.db sqlSelectById [id]).2, w.calls ++ [⟨sqlSelectById, [id]⟩]⟩)
           | some current =>
             (Except.map (fun r => r.rows.head?)
                 (pool.query (pool.query w.db sqlSelectById [id]).2 sqlPatch
                   [.bool (!current.completed), id]).1,
               ⟨(pool.query (pool.query w.db sqlSelectById [id]).2 sqlPatch
                   [.bool (!current.completed), id]).2,
                 w.calls ++ [⟨sqlSelectById, [id]⟩,
                   ⟨sqlPatch, [.bool (!current.completed), id]⟩]⟩)) ∧
      patchTaskCompleted pgPool (.str s) (.bool b) ⟨db, calls⟩ =
        (.ok ((db.rows.find? (fun t => t.id == s)).map (patchRow s b)),
          ⟨{ db with rows := db.rows.map (patchRow s b), now := db.now + 1 },
            calls ++ [⟨sqlPatch, [.bool b, .str s]⟩]⟩) ∧
      patchTaskCompleted pgPool (.str s) .undefined ⟨db, calls⟩ =
        (match db.rows.find? (fun t => t.id == s) with
         | none => (.ok none, ⟨db, calls ++ [⟨sqlSelectById, [.str s]⟩]⟩)
         | some t =>
           (.ok (some (patchRow s (!t.completed) t)),
             ⟨⟨db.rows.map (patchRow s (!t.completed)), db.now + 1, db.idLen⟩,
               calls ++ [⟨sqlSelectById, [.str s]⟩,
                 ⟨sqlPatch, [.bool (!t.completed), .str s]⟩]⟩)) := by
  refine ⟨?_, patch_pg_set db s b calls, patch_pg_toggle db s .undefined rfl calls⟩
  cases completed with
  | bool v => exact patch_write_general pool id v w
  | _ => exact patch_toggle_general pool id _ (by rfl) w

/-! ## C10: the toggle flips the flag -/

/-- C10: on the modelled store, run one call after the other, for every task
of the table (the first row with its id), `patchTaskCompleted(id, undefined)`
resolves to that task with completed negated, and a second toggle right after
resolves to the task with completed equal to the original value; every other
column is that of the task. -/
theorem patchTaskCompleted_toggle (db : Db) (s : String) (t : Task) (calls : List SqlCall)
    (h : db.rows.find? (fun t => t.id == s) = some t) :
    (patchTaskCompleted pgPool (.str s) .undefined ⟨db, calls⟩).1 =
        .ok (some { t with completed := !t.completed }) ∧
      (patchTaskCompleted pgPool (.str s) .undefined
          (patchTaskCompleted pgPool (.str s) .undefined ⟨db, calls⟩).2).1 =
        .ok (some { t with completed := t.completed }) ∧
      ((patchTaskCompleted pgPool (.str s) .undefined
          (patchTaskCompleted pgPool (.str s) .undefined ⟨db, calls⟩).2).2.db.rows.find?
            (fun t => t.id == s)) =
        some { t with completed := t.completed } := by
  have hid : (t.id == s) = true := @List.find?_some Task (fun t => t.id == s) t db.rows h
  have e1 : patchRow s (!t.completed) t = { t with completed := !t.completed } := by
    simp [patchRow, hid]
  have hf2 : (db.rows.map (patchRow s (!t.completed))).find? (fun t => t.id == s)
      = some { t with completed := !t.completed } := by
    rw [find?_patchRow, h, Option.map_some', e1]
  have e2 : patchRow s t.completed { t with completed := !t.completed }
      = { t with completed := t.completed } := by
    simp [patchRow, hid]
  rw [patch_pg_toggle db s .undefined rfl calls, h]
  simp only
  rw [patch_pg_toggle _ s .undefined rfl _]
  simp only [hf2, Bool.not_not, e1, e2, find?_patchRow, Option.map_some', true_and]

/-- C10, at an input: a table of two tasks, the first toggled twice. -/
theorem patchTaskCompleted_toggle_witness :
    (patchTaskCompleted pgPool (.str "a") .undefined
        ⟨⟨[⟨"a", "x", false, 0, 0⟩, ⟨"b", "y", true, 1, 1⟩], 2, 1⟩, []⟩).1 =
        .ok (some ⟨"a", "x", true, 0, 0⟩) ∧
      (patchTaskCompleted pgPool (.str "a") .undefined
          (patchTaskCompleted pgPool (.str "a") .undefined
            ⟨⟨[⟨"a", "x", false, 0, 0⟩, ⟨"b", "y", true, 1, 1⟩], 2, 1⟩, []⟩).2).1 =
        .ok (some ⟨"a", "x", false, 0, 0⟩) ∧
      ((patchTaskCompleted pgPool (.str "a") .undefined
          (patchTaskCompleted pgPool (.str "a") .undefined
            ⟨⟨[⟨"a", "x", false, 0, 0⟩, ⟨"b", "y", true, 1, 1⟩], 2, 1⟩, []⟩).2).2.db.rows.find?
            (fun t => t.id == "a")) =
        some ⟨"a", "x", false, 0, 0⟩ :=
  patchTaskCompleted_toggle ⟨[⟨"a", "x", false, 0, 0⟩, ⟨"b", "y", true, 1, 1⟩], 2, 1⟩ "a"
    ⟨"a", "x", false, 0, 0⟩ [] (by decide)

/-! ## The insert, the update and the delete on the modelled store -/

theorem pgQuery_insert (db : Db) (title : String) (c : Bool) :
    pgQuery db sqlInsert [.str title, .bool c] =
      (.ok { rows := [insertedRow db title c], rowCount := 1 },
        ⟨db.rows ++ [insertedRow db title c], db.now + 1, freshIdLen db⟩) := by
  have h : parseListSql sqlInsert = none := by decide
  have hp : parseStmt sqlInsert
      = some (.insert ["title", "completed"] [.param 1, .param 2]) := by decide
  simp [pgQuery, h, hp, Stmt.params, boundValue, assignments, assignment, insertedRow]

theorem pgQuery_update (db : Db) (title : String) (c : Bool) (s : String) :
    pgQuery db sqlUpdate [.str title, .bool c, .str s] =
      (.ok { rows := (db.rows.filter (fun t => t.id == s)).map (replaceRow s title c),
             rowCount :=
               ((db.rows.filter (fun t => t.id == s)).map (replaceRow s title c)).length },
        ⟨db.rows.map (replaceRow s title c), db.now + 1, db.idLen⟩) := by
  have h : parseListSql sqlUpdate = none := by decide
  have hp : parseStmt sqlUpdate
      = some (.update [("title", .param 1), ("completed", .param 2)] 3) := by decide
  have hm := map_filter_id db.rows s (fun t => { t with title := title, completed := c })
  simp [pgQuery, h, hp, Stmt.params, boundValue, assignments, assignment, hm, replaceRow]

theorem pgQuery_delete (db : Db) (s : String) :
    pgQuery db sqlDelete [.str s] =
      (.ok { rows := [], rowCount := (db.rows.filter (fun t => t.id == s)).length },
        ⟨db.rows.filter (fun t => !(t.id == s)), db.now + 1, db.idLen⟩) := by
  have h : parseListSql sqlDelete = none := by decide
  have hp : parseStmt sqlDelete = some (.delete 1) := by decide
  simp [pgQuery, h, hp, Stmt.params, boundValue]

theorem no_row_of_find?_none (rows : List Task) (s : String)
    (h : rows.find? (fun t => t.id == s) = none) : ∀ t ∈ rows, (t.id == s) = false := by
  intro t ht
  have := List.find?_eq_none.mp h t ht
  simpa using this

theorem filter_id_of_no_row (rows : List Task) (s : String)
    (h : ∀ t ∈ rows, (t.id == s) = false) :
    rows.filter (fun t => t.id == s) = [] ∧ rows.filter (fun t => !(t.id == s)) = rows ∧
      (∀ f : Task → Task, rows.map (fun t => if t.id == s then f t else t) = rows) := by
  induction rows with
  | nil => simp
  | cons t ts ih =>
    have ht : (t.id == s) = false := h t (List.mem_cons_self _ _)
    obtain ⟨i1, i2, i3⟩ := ih (fun x hx => h x (List.mem_cons_of_mem _ hx))
    refine ⟨?_, ?_, ?_⟩
    · rw [List.filter_cons_of_neg (by simp [ht])]
      exact i1
    · rw [List.filter_cons_of_pos (by simp [ht]), i2]
    · intro f
      rw [List.map_cons, i3 f, if_neg (by simp [ht])]

theorem update_pg (db : Db) (s title : String) (c : Bool) (calls : List SqlCall) :
    updateTask pgPool (.str s) ⟨.str title, .bool c⟩ ⟨db, calls⟩ =
      (.ok ((db.rows.find? (fun t => t.id == s)).map (replaceRow s title c)),
        ⟨⟨db.rows.map (replaceRow s title c), db.now + 1, db.idLen⟩,
          calls ++ [⟨sqlUpdate, [.str title, .bool c, .str s]⟩]⟩) := by
  simp [updateTask, poolQuery, pgPool, pgQuery_update, List.head?_map, head?_filter_eq_find?]

theorem delete_pg (db : Db) (s : String) (calls : List SqlCall) :
    deleteTask pgPool (.str s) ⟨db, calls⟩ =
      (.ok (decide ((db.rows.filter (fun t => t.id == s)).length > 0)),
        ⟨⟨db.rows.filter (fun t => !(t.id == s)), db.now + 1, db.idLen⟩,
          calls ++ [⟨sqlDelete, [.str s]⟩]⟩) := by
  simp [deleteTask, poolQuery, pgPool, pgQuery_delete]

theorem getTaskById_pg (db : Db) (s : String) (calls : List SqlCall) :
    getTaskById pgPool (.str s) ⟨db, calls⟩ =
      (.ok (db.rows.find? (fun t => t.id == s)),
        ⟨db, calls ++ [⟨sqlSelectById, [.str s]⟩]⟩) := by
  simp [getTaskById, poolQuery, pgPool, pgQuery_select, head?_filter_eq_find?]

theorem create_pg (db : Db) (title : String) (extra : JSVal) (calls : List SqlCall) :
    createTask pgPool ⟨.str title, extra⟩ ⟨db, calls⟩ =
      (.ok (some (insertedRow db title false)),
        ⟨⟨db.rows ++ [insertedRow db title false], db.now + 1, freshIdLen db⟩,
          calls ++ [⟨sqlInsert, [.str title, .bool false]⟩]⟩) := by
  simp [createTask, poolQuery, pgPool, pgQuery_insert]

/-! ## C11: an id that matches no row -/

/-- C11: on the modelled store, for every id that matches no row,
`getTaskById`, `updateTask` and `patchTaskCompleted` (with completed given and
with it omitted) resolve to null and `deleteTask` resolves to false; none of
them rejects, and the rows of the table are the same afterwards. -/
theorem absent_id_signals_not_found (db : Db) (s title : String) (c b : Bool)
    (calls : List SqlCall) (h : ∀ t ∈ db.rows, t.id ≠ s) :
    (getTaskById pgPool (.str s) ⟨db, calls⟩).1 = .ok none ∧
      (getTaskById pgPool (.str s) ⟨db, calls⟩).2.db = db ∧
      (updateTask pgPool (.str s) ⟨.str title, .bool c⟩ ⟨db, calls⟩).1 = .ok none ∧
      (updateTask pgPool (.str s) ⟨.str title, .bool c⟩ ⟨db, calls⟩).2.db.rows = db.rows ∧
      (patchTaskCompleted pgPool (.str s) (.bool b) ⟨db, calls⟩).1 = .ok none ∧
      (patchTaskCompleted pgPool (.str s) (.bool b) ⟨db, calls⟩).2.db.rows = db.rows ∧
      (patchTaskCompleted pgPool (.str s) .undefined ⟨db, calls⟩).1 = .ok none ∧
      (patchTaskCompleted pgPool (.str s) .undefined ⟨db, calls⟩).2.db = db ∧
      (deleteTask pgPool (.str s) ⟨db, calls⟩).1 = .ok false ∧
      (deleteTask pgPool (.str s) ⟨db, calls⟩).2.db.rows = db.rows := by
  have hb : ∀ t ∈ db.rows, (t.id == s) = false := fun t ht => by simpa using h t ht
  have hf : db.rows.find? (fun t => t.id == s) = none :=
    List.find?_eq_none.mpr (fun t ht => by simp [hb t ht])
  obtain ⟨f1, f2, f3⟩ := filter_id_of_no_row db.rows s hb
  have m1 : db.rows.map (replaceRow s title c) = db.rows :=
    f3 (fun t => { t with title := title, completed := c })
  have m2 : db.rows.map (patchRow s b) = db.rows :=
    f3 (fun t => { t with completed := b })
  rw [getTaskById_pg, update_pg, patch_pg_set, patch_pg_toggle db s .undefined rfl, delete_pg,
    hf, f1, f2, m1, m2]
  simp

/-- C11, at an input: a table of two tasks and an id that is none of theirs. -/
theorem absent_id_signals_not_found_witness :
    (getTaskById pgPool (.str "z")
        ⟨⟨[⟨"a", "x", false, 0, 0⟩, ⟨"b", "y", true, 1, 1⟩], 2, 1⟩, []⟩).1 = .ok none ∧
      (deleteTask pgPool (.str "z")
        ⟨⟨[⟨"a", "x", false, 0, 0⟩, ⟨"b", "y", true, 1, 1⟩], 2, 1⟩, []⟩).1 = .ok false :=
  have h := absent_id_signals_not_found
    ⟨[⟨"a", "x", false, 0, 0⟩, ⟨"b", "y", true, 1, 1⟩], 2, 1⟩ "z" "t" true false []
    (by decide)
  ⟨h.1, h.2.2.2.2.2.2.2.2.1⟩

/-! ## C12: `deleteTask` -/

theorem filter_filter_not (rows : List Task) (s : String) :
    (rows.filter (fun t => !(t.id == s))).filter (fun t => t.id == s) = [] := by
  rw [List.filter_eq_nil_iff]
  intro t ht
  have := (List.mem_filter.mp ht).2
  simpa using this

/-- C12: over every pool `deleteTask(id)` issues the one DELETE binding `[id]`
and resolves to true exactly when the `rowCount` the store reports is greater
than 0, to false otherwise; on the modelled store, run one call after the
other, deleting the id of an existing task resolves to true the first time and
to false the second time, and neither call rejects. -/
theorem deleteTask_reports_removal {σ : Type} (pool : Pool σ) (id : JSVal) (w : World σ)
    (db : Db) (s : String) (t : Task) (calls : List SqlCall)
    (h : db.rows.find? (fun t => t.id == s) = some t) :
    deleteTask pool id w =
        (Except.map (fun r => decide (r.rowCount > 0)) (pool.query w.db sqlDelete [id]).1,
          ⟨(pool.query w.db sqlDelete [id]).2, w.calls ++ [⟨sqlDelete, [id]⟩]⟩) ∧
      (deleteTask pgPool (.str s) ⟨db, calls⟩).1 = .ok true ∧
      (deleteTask pgPool (.str s) (deleteTask pgPool (.str s) ⟨db, calls⟩).2).1 = .ok false := by
  refine ⟨?_, ?_, ?_⟩
  · simp only [deleteTask, poolQuery]
    cases hq : (pool.query w.db sqlDelete [id]).1 <;> simp [Except.map]
  · rw [delete_pg]
    have hm : t ∈ db.rows.filter (fun t => t.id == s) := by
      rw [List.mem_filter]
      exact ⟨List.mem_of_find?_eq_some h,
        @List.find?_some Task (fun t => t.id == s) t db.rows h⟩
    have : 0 < (db.rows.filter (fun t => t.id == s)).length := List.length_pos_of_mem hm
    simp [this]
  · rw [delete_pg, delete_pg]
    simp [filter_filter_not]

/-- C12, at an input: the first of two tasks deleted twice. -/
theorem deleteTask_reports_removal_witness :
    (deleteTask pgPool (.str "a")
        ⟨⟨[⟨"a", "x", false, 0, 0⟩, ⟨"b", "y", true, 1, 1⟩], 2, 1⟩, []⟩).1 = .ok true ∧
      (deleteTask pgPool (.str "a") (deleteTask pgPool (.str "a")
        ⟨⟨[⟨"a", "x", false, 0, 0⟩, ⟨"b", "y", true, 1, 1⟩], 2, 1⟩, []⟩).2).1 = .ok false :=
  (deleteTask_reports_removal pgPool (.str "a")
    ⟨⟨[⟨"a", "x", false, 0, 0⟩, ⟨"b", "y", true, 1, 1⟩], 2, 1⟩, []⟩
    ⟨[⟨"a", "x", false, 0, 0⟩, ⟨"b", "y", true, 1, 1⟩], 2, 1⟩ "a" ⟨"a", "x", false, 0, 0⟩ []
    (by decide)).2

/-! ## C13: `createTask` -/

theorem foldl_max_ge (rows : List Task) (m : Nat) :
    m ≤ rows.foldl (fun m t => max m t.id.length) m ∧
      ∀ t ∈ rows, t.id.length ≤ rows.foldl (fun m t => max m t.id.length) m := by
  induction rows generalizing m with
  | nil => simp
  | cons r rs ih =>
    obtain ⟨h1, h2⟩ := ih (max m r.id.length)
    refine ⟨le_trans (le_max_left _ _) h1, ?_⟩
    intro t ht
    rcases List.mem_cons.mp ht with e | e
    · subst e
      exact le_trans (le_max_right _ _) h1
    · exact h2 t e

/-- The identifier of an inserted row is the identifier of no row of the
table. -/
theorem insertedRow_fresh (db : Db) (title : String) (c : Bool) :
    ∀ t ∈ db.rows, (t.id == (insertedRow db title c).id) = false := by
  intro t ht
  have h1 := (foldl_max_ge db.rows db.idLen).2 t ht
  have h2 : (insertedRow db title c).id.length = freshIdLen db := by
    simp [insertedRow, String.length]
  have hne : t.id ≠ (insertedRow db title c).id := by
    intro e
    rw [e, h2] at h1
    simp only [freshIdLen] at h1
    omega
  simpa using hne

/-- C13: over every pool `createTask` issues the one INSERT binding exactly
`[title, false]`, whatever else its argument holds, and resolves to the first
row the store returns; on the modelled store the created task has the title
given and completed = false, and `getTaskById` on its id right after resolves
to the identical task. -/
theorem createTask_inserts {σ : Type} (pool : Pool σ) (arg : Body) (w : World σ) (db : Db)
    (title : String) (extra : JSVal) (calls : List SqlCall) :
    createTask pool arg w =
        (Except.map (fun r => r.rows.head?)
            (pool.query w.db sqlInsert [arg.title, .bool false]).1,
          ⟨(pool.query w.db sqlInsert [arg.title, .bool false]).2,
            w.calls ++ [⟨sqlInsert, [arg.title, .bool false]⟩]⟩) ∧
      (∃ t, (createTask pgPool ⟨.str title, extra⟩ ⟨db, calls⟩).1 = .ok (some t) ∧
        t.title = title ∧ t.completed = false ∧
        (createTask pgPool ⟨.str title, extra⟩ ⟨db, calls⟩).2.calls
          = calls ++ [⟨sqlInsert, [.str title, .bool false]⟩] ∧
        (getTaskById pgPool (.str t.id)
          (createTask pgPool ⟨.str title, extra⟩ ⟨db, calls⟩).2).1 = .ok (some t)) := by
  constructor
  · simp only [createTask, poolQuery]
    cases hq : (pool.query w.db sqlInsert [arg.title, .bool false]).1 <;> simp [Except.map]
  · refine ⟨insertedRow db title false, ?_, rfl, rfl, ?_, ?_⟩
    · rw [create_pg]
    · rw [create_pg]
    · rw [create_pg, getTaskById_pg]
      simp only
      have hf : db.rows.find? (fun t => t.id == (insertedRow db title false).id) = none :=
        List.find?_eq_none.mpr (fun t ht => by simp [insertedRow_fresh db title false t ht])
      rw [List.find?_append, hf]
      simp [List.find?]

/-! ## C20: the time stamps of a mutation -/

/-- On the first row with an id, a change of the rows with that id is the
change. -/
theorem find?_map_id (rows : List Task) (s : String) (f : Task → Task) :
    (rows.find? (fun t => t.id == s)).map (fun t => if t.id == s then f t else t) =
      (rows.find? (fun t => t.id == s)).map f := by
  cases h : rows.find? (fun t => t.id == s) with
  | none => rfl
  | some t =>
    have hid : (t.id == s) = true := @List.find?_some Task (fun t => t.id == s) t rows h
    simp only [Option.map_some', hid, if_true]

/-- C20: the statements of `updateTask` and `patchTaskCompleted` name `title`
and `completed` alone, so on the store that executes them as they are written
the row they resolve to has the `updated_at` it had before, for every table, id
and values.  At the input of a task created and last updated at instant 1 and
updated when the clock of the store tells 5, the row returned has `updated_at`
1, not 5; the same store stamps the row when the statement names
`updated_at`. -/
theorem mutation_keeps_updated_at (db : Db) (s title : String) (c b : Bool)
    (calls : List SqlCall) :
    (updateTask pgPool (.str s) ⟨.str title, .bool c⟩ ⟨db, calls⟩).1 =
        .ok ((db.rows.find? (fun t => t.id == s)).map
          (fun t => { t with title := title, completed := c })) ∧
      (patchTaskCompleted pgPool (.str s) (.bool b) ⟨db, calls⟩).1 =
        .ok ((db.rows.find? (fun t => t.id == s)).map (fun t => { t with completed := b })) ∧
      (patchTaskCompleted pgPool (.str s) .undefined ⟨db, calls⟩).1 =
        .ok ((db.rows.find? (fun t => t.id == s)).map
          (fun t => { t with completed := !t.completed })) ∧
      (updateTask pgPool (.str "a") ⟨.str "t", .bool true⟩
          ⟨⟨[⟨"a", "x", false, 1, 1⟩], 5, 1⟩, []⟩).1 = .ok (some ⟨"a", "t", true, 1, 1⟩) ∧
      (patchTaskCompleted pgPool (.str "a") .undefined
          ⟨⟨[⟨"a", "x", false, 1, 1⟩], 5, 1⟩, []⟩).1 = .ok (some ⟨"a", "x", true, 1, 1⟩) ∧
      (pgQuery ⟨[⟨"a", "x", false, 1, 1⟩], 5, 1⟩
          ("UPDATE tasks SET title = $1, completed = $2, updated_at = NOW() WHERE id = $3 "
            ++ "RETURNING id, title, completed, created_at, updated_at")
          [.str "t", .bool true, .str "a"]).1 = .ok ⟨[⟨"a", "t", true, 1, 5⟩], 1⟩ := by
  refine ⟨?_, ?_, ?_, by decide, by decide, by decide⟩
  · rw [update_pg]
    exact congrArg Except.ok (find?_map_id db.rows s _)
  · rw [patch_pg_set]
    exact congrArg Except.ok (find?_map_id db.rows s _)
  · rw [patch_pg_toggle db s .undefined rfl]
    cases h : db.rows.find? (fun t => t.id == s) with
    | none => rfl
    | some t =>
      have hid : (t.id == s) = true := @List.find?_some Task (fun t => t.id == s) t db.rows h
      simp [patchRow, hid]

/-! ## C14: the handlers and the absent task -/

/-- C14: for each of `getTaskController`, `updateTaskController`,
`patchCompletedController` and `deleteTaskController`, over every pool and for
every request: when the engine resolves to null (to false for the delete) the
handler calls `next` once, with exactly `{ statusCode: 404, message: 'Task not
found' }`, and writes no response; when the engine resolves to a task (to true
for the delete) it writes the one response, status 200 with the task (status
204 with no body for the delete), and does not call `next`; when the store
call fails nothing is written and the failure goes to `next`.  In every case
the handler writes a response or calls `next`, never both. -/
theorem handlers_respond_or_forward {σ : Type} (pool : Pool σ) (req : Request) (w : World σ) :
    (getTaskController pool req w =
        (match (getTaskById pool (req.params.prop "id") w).1 with
         | .ok none => { sent := [], nexts := [some taskNotFound] }
         | .ok (some task) => { sent := [{ status := 200, body := some task }], nexts := [] }
         | .error e => { sent := [], nexts := [some { message := some e }] },
         (getTaskById pool (req.params.prop "id") w).2) ∧
      (getTaskController pool req w).1.sent.length
        + (getTaskController pool req w).1.nexts.length = 1) ∧
    (updateTaskController pool req w =
        (match (updateTask pool (req.params.prop "id")
            ⟨req.body.prop "title", req.body.prop "completed"⟩ w).1 with
         | .ok none => { sent := [], nexts := [some taskNotFound] }
         | .ok (some task) => { sent := [{ status := 200, body := some task }], nexts := [] }
         | .error e => { sent := [], nexts := [some { message := some e }] },
         (updateTask pool (req.params.prop "id")
            ⟨req.body.prop "title", req.body.prop "completed"⟩ w).2) ∧
      (updateTaskController pool req w).1.sent.length
        + (updateTaskController pool req w).1.nexts.length = 1) ∧
    (patchCompletedController pool req w =
        (match (patchTaskCompleted pool (req.params.prop "id")
            (req.body.prop "completed") w).1 with
         | .ok none => { sent := [], nexts := [some taskNotFound] }
         | .ok (some task) => { sent := [{ status := 200, body := some task }], nexts := [] }
         | .error e => { sent := [], nexts := [some { message := some e }] },
         (patchTaskCompleted pool (req.params.prop "id") (req.body.prop "completed") w).2) ∧
      (patchCompletedController pool req w).1.sent.length
        + (patchCompletedController pool req w).1.nexts.length = 1) ∧
    (deleteTaskController pool req w =
        (match (deleteTask pool (req.params.prop "id") w).1 with
         | .ok false => { sent := [], nexts := [some taskNotFound] }
         | .ok true => { sent := [{ status := 204, body := none }], nexts := [] }
         | .error e => { sent := [], nexts := [some { message := some e }] },
         (deleteTask pool (req.params.prop "id") w).2) ∧
      (deleteTaskController pool req w).1.sent.length
        + (deleteTaskController pool req w).1.nexts.length = 1) := by
  refine ⟨?_, ?_, ?_, ?_⟩
  · simp only [getTaskController, asyncHandler]
    generalize getTaskById pool (req.params.prop "id") w = p
    obtain ⟨r, w1⟩ := p
    rcases r with e | (_ | t) <;> exact ⟨rfl, rfl⟩
  · simp only [updateTaskController, asyncHandler]
    generalize updateTask pool (req.params.prop "id")
      ⟨req.body.prop "title", req.body.prop "completed"⟩ w = p
    obtain ⟨r, w1⟩ := p
    rcases r with e | (_ | t) <;> exact ⟨rfl, rfl⟩
  · simp only [patchCompletedController, asyncHandler]
    generalize patchTaskCompleted pool (req.params.prop "id") (req.body.prop "completed") w = p
    obtain ⟨r, w1⟩ := p
    rcases r with e | (_ | t) <;> exact ⟨rfl, rfl⟩
  · simp only [deleteTaskController, asyncHandler]
    generalize deleteTask pool (req.params.prop "id") w = p
    obtain ⟨r, w1⟩ := p
    rcases r with e | (_ | _) <;> exact ⟨rfl, rfl⟩

/-! ## C15: what `errorHandler` tells the client about an unexpected failure -/

/-- C15, counterexample: a failure of the store that carries no statusCode and
the message `connect ECONNREFUSED 127.0.0.1:5432` is answered with status 500
and a body whose error field is that very message, not a generic one; so it is
for the handler of a request whose store call fails with it. -/
theorem errorHandler_sends_cause :
    (errorHandler { message := some "connect ECONNREFUSED 127.0.0.1:5432" }).status = 500 ∧
      (errorHandler { message := some "connect ECONNREFUSED 127.0.0.1:5432" }).body.error
        = "connect ECONNREFUSED 127.0.0.1:5432" ∧
      (errorHandler { message := some "connect ECONNREFUSED 127.0.0.1:5432" }).body.error
        ≠ "Internal Server Error" ∧
      ((getTaskController
          (⟨fun s _ _ => (.error "connect ECONNREFUSED 127.0.0.1:5432", s)⟩ : Pool Unit)
          ⟨⟨[("id", .str "00000000-0000-4000-8000-000000000000")]⟩, ⟨[]⟩, ⟨[]⟩⟩
          ⟨(), []⟩).1.nexts.map (fun e => e.map (fun x => (errorHandler x).body.error)))
        = [some "connect ECONNREFUSED 127.0.0.1:5432"] := by
  decide

/-- C15, amended: for every error that carries no statusCode, `errorHandler`
answers with status 500, writes the error to the server log, and sends a body
with statusCode 500 whose error field is the error's own message when it has a
non-empty one, and the generic `Internal Server Error` only when it has no
message or an empty one; details the error carries are sent as well. -/
theorem errorHandler_unexpected (message : String) (details : Option (List Detail)) :
    (errorHandler ⟨none, some message, details⟩).status = 500 ∧
      (errorHandler ⟨none, some message, details⟩).body.statusCode = 500 ∧
      (errorHandler ⟨none, some message, details⟩).body.error
        = (if message = "" then "Internal Server Error" else message) ∧
      (errorHandler ⟨none, some message, details⟩).body.details = details ∧
      (errorHandler ⟨none, some message, details⟩).logged
        = some ⟨none, some message, details⟩ ∧
      (errorHandler ⟨none, none, details⟩).status = 500 ∧
      (errorHandler ⟨none, none, details⟩).body.statusCode = 500 ∧
      (errorHandler ⟨none, none, details⟩).body.error = "Internal Server Error" ∧
      (errorHandler ⟨none, none, details⟩).body.details = details ∧
      (errorHandler ⟨none, none, details⟩).logged = some ⟨none, none, details⟩ := by
  cases details <;> by_cases h : message = "" <;> simp [errorHandler, h]

/-! ## C16: the shape of the error body -/

/-- C16: for every error object `errorHandler` sends a body with the fields
error, statusCode and, optionally, details, in which statusCode is the status
set on the response, namely the statusCode of the error, or 500 when that is
absent or 0; error is a string that is not empty; details is there exactly
when the error carries details, and is then equal to them.  A validation
failure gives 400 with its details, a not-found 404 with no details. -/
theorem errorHandler_shape (err : ErrObj) (ds : List Detail) :
    (errorHandler err).body.statusCode = (errorHandler err).status ∧
      (errorHandler err).status =
        (match err.statusCode with
         | some n => if n = 0 then 500 else n
         | none => 500) ∧
      (errorHandler err).body.error ≠ "" ∧
      (errorHandler err).body.details = err.details ∧
      errorHandler ⟨some 400, some "Validation error", some ds⟩ =
        ⟨400, ⟨"Validation error", 400, some ds⟩, none⟩ ∧
      errorHandler taskNotFound = ⟨404, ⟨"Task not found", 404, none⟩, none⟩ := by
  obtain ⟨sc, m, d⟩ := err
  refine ⟨?_, ?_, ?_, ?_, by simp [errorHandler], by decide⟩
  · cases d <;> rfl
  · cases sc with
    | none => rfl
    | some n => by_cases h : n = 0 <;> simp [errorHandler, h]
  · cases d <;> cases m with
    | none => simp [errorHandler]
    | some s => by_cases h : s = "" <;> simp [errorHandler, h]
  · cases d <;> rfl

/-! ## C17: the validation middleware -/

/-- C17: for every schema, property and request, when the schema reports an
error the middleware calls `next` once, with status 400, the message
`Validation error` and one entry, message and path, for every detail the
schema reports, and the request is left as it was; when the schema reports no
error the property of the request is replaced by the sanitized value and
`next` is called once with no error.  The schemas of the task routes report
the violations of every key: an update payload with an empty title and a
completed that is no boolean gives two entries. -/
theorem validate_reports_all (schema : Schema) (property : Property) (req : Request) :
    (match (schema.validate (req.get property)).error with
     | some details =>
       validate schema property req =
         (req, { sent := [],
                 nexts := [some ⟨some 400, some "Validation error",
                   some (details.map (fun d => ⟨d.message, d.path⟩))⟩] }) ∧
         (details.map (fun d => (⟨d.message, d.path⟩ : Detail))).length = details.length
     | none =>
       validate schema property req =
         (req.set property (schema.validate (req.get property)).value,
           { sent := [], nexts := [none] })) ∧
      (validate updateTaskSchema .body
          ⟨⟨[]⟩, ⟨[("title", .str ""), ("completed", .str "yes")]⟩, ⟨[]⟩⟩) =
        (⟨⟨[]⟩, ⟨[("title", .str ""), ("completed", .str "yes")]⟩, ⟨[]⟩⟩,
          { sent := [],
            nexts := [some ⟨some 400, some "Validation error",
              some [⟨"\"title\" is not allowed to be empty", ["title"]⟩,
                ⟨"\"completed\" must be a boolean", ["completed"]⟩]⟩] }) ∧
      (validate updateTaskSchema .body
          ⟨⟨[]⟩, ⟨[("title", .str " a "), ("completed", .bool true), ("x", .num 1)]⟩, ⟨[]⟩⟩) =
        (⟨⟨[]⟩, ⟨[("title", .str "a"), ("completed", .bool true)]⟩, ⟨[]⟩⟩,
          { sent := [], nexts := [none] }) := by
  refine ⟨?_, by decide, by decide⟩
  unfold validate
  cases h : (schema.validate (req.get property)).error with
  | none => simp [h]
  | some details => simp [h]

/-! ## C18: the create payload -/

theorem jsLength_pos (t : String) (h : t ≠ "") : 1 ≤ jsLength t := by
  obtain ⟨cs⟩ := t
  cases cs with
  | nil => exact absurd rfl h
  | cons c cs =>
    simp only [jsLength, List.map_cons, List.sum_cons]
    split <;> omega

set_option maxRecDepth 20000 in
/-- C18: validation of a create payload accepts it exactly when title is a
string whose length after trimming surrounding white space is between 1 and
255, and the sanitized payload then holds the trimmed title and nothing else;
a missing title, an empty title and a title of length 256 each make the
middleware call `next` with status 400 and details that are not empty, and the
route answer 400 without a store call. -/
theorem createTaskSchema_accepts (o : Obj) :
    (match o.prop "title" with
     | .str s =>
       if 1 ≤ jsLength (jsTrim s) ∧ jsLength (jsTrim s) ≤ 255 then
         createTaskSchema.validate o = ⟨none, ⟨[("title", .str (jsTrim s))]⟩⟩
       else (createTaskSchema.validate o).error.isSome = true
     | _ => (createTaskSchema.validate o).error.isSome = true) ∧
      (validate createTaskSchema .body ⟨⟨[]⟩, ⟨[]⟩, ⟨[]⟩⟩).2.nexts =
        [some ⟨some 400, some "Validation error",
          some [⟨"\"title\" is required", ["title"]⟩]⟩] ∧
      (validate createTaskSchema .body ⟨⟨[]⟩, ⟨[("title", .str "")]⟩, ⟨[]⟩⟩).2.nexts =
        [some ⟨some 400, some "Validation error",
          some [⟨"\"title\" is not allowed to be empty", ["title"]⟩]⟩] ∧
      (validate createTaskSchema .body
          ⟨⟨[]⟩, ⟨[("title", .str ⟨List.replicate 256 'a'⟩)]⟩, ⟨[]⟩⟩).2.nexts =
        [some ⟨some 400, some "Validation error",
          some [⟨"\"title\" length must be less than or equal to 255 characters long",
            ["title"]⟩]⟩] ∧
      (createTaskRoute pgPool ⟨⟨[]⟩, ⟨[("title", .str ⟨List.replicate 256 'a'⟩)]⟩, ⟨[]⟩⟩
          ⟨⟨[], 0, 0⟩, []⟩) =
        (.failed ⟨400, ⟨"Validation error", 400,
          some [⟨"\"title\" length must be less than or equal to 255 characters long",
            ["title"]⟩]⟩, none⟩, ⟨⟨[], 0, 0⟩, []⟩) := by
  refine ⟨?_, by decide, by decide, by decide, by decide⟩
  cases hv : o.prop "title" with
  | str s =>
    simp only [createTaskSchema, objectSchema, List.map_cons, List.map_nil, hv, validateField,
      if_true]
    by_cases he : jsTrim s = ""
    · have h0 : jsLength "" = 0 := rfl
      simp [he, h0]
    · have h1 := jsLength_pos _ he
      by_cases h2 : jsLength (jsTrim s) ≤ 255
      · have h3 : ¬ jsLength (jsTrim s) > 255 := by omega
        have h4 : ¬ jsLength (jsTrim s) < 1 := by omega
        simp [he, h1, h2, h3, h4]
      · have h3 : jsLength (jsTrim s) > 255 := by omega
        simp [he, h2, h3]
  | undefined =>
    simp [createTaskSchema, objectSchema, hv, validateField]
  | _ => simp [createTaskSchema, objectSchema, hv, validateField]

/-! ## C19: the id parameter -/

theorem idParamSchema_validate (o : Obj) :
    match o.prop "id" with
    | .str s =>
      if isUuid [4, 5] s then idParamSchema.validate o = ⟨none, ⟨[("id", .str s)]⟩⟩
      else (idParamSchema.validate o).error.isSome = true
    | _ => (idParamSchema.validate o).error.isSome = true := by
  cases hv : o.prop "id" with
  | str s =>
    simp only [idParamSchema, objectSchema, List.map_cons, List.map_nil, hv, validateField]
    by_cases he : s = ""
    · subst he
      have : isUuid [4, 5] "" = false := by decide
      simp [this]
    · by_cases hu : isUuid [4, 5] s = true
      · simp [he, hu]
      · simp [he, hu]
  | undefined => simp [idParamSchema, objectSchema, hv, validateField]
  | _ => simp [idParamSchema, objectSchema, hv, validateField]

theorem route_stops_at_id {σ : Type} (rest : List (Schema × Property))
    (handler : Request → World σ → Effects × World σ) (req : Request) (w : World σ)
    (details : List Violation) (h : (idParamSchema.validate req.params).error = some details) :
    runRoute ((idParamSchema, .params) :: rest) handler req w =
      (.failed ⟨400, ⟨"Validation error", 400,
        some (details.map (fun d => ⟨d.message, d.path⟩))⟩, none⟩, w) := by
  simp [runRoute, validate, Request.get, h, errorHandler]

/-- C19: validation of the id path parameter accepts a value exactly when it is
a string in the textual format of a UUID of version 4 or 5, and rejects every
other value: `invalid-uuid` and a well-formed UUID of version 1 make the
middleware call `next` with status 400.  On each route that takes an id a
request whose id fails validation is answered by `errorHandler` with status
400 and the details of the failure, and the store and the log of store calls
are left as they were: the engine is not reached. -/
theorem idParamSchema_accepts {σ : Type} (o : Obj) (pool : Pool σ) (req : Request)
    (w : World σ) :
    (match o.prop "id" with
     | .str s =>
       if isUuid [4, 5] s then idParamSchema.validate o = ⟨none, ⟨[("id", .str s)]⟩⟩
       else (idParamSchema.validate o).error.isSome = true
     | _ => (idParamSchema.validate o).error.isSome = true) ∧
      (validate idParamSchema .params ⟨⟨[("id", .str "invalid-uuid")]⟩, ⟨[]⟩, ⟨[]⟩⟩).2.nexts =
        [some ⟨some 400, some "Validation error",
          some [⟨"\"id\" must be a valid GUID", ["id"]⟩]⟩] ∧
      (validate idParamSchema .params
          ⟨⟨[("id", .str "123e4567-e89b-12d3-a456-426614174000")]⟩, ⟨[]⟩, ⟨[]⟩⟩).2.nexts =
        [some ⟨some 400, some "Validation error",
          some [⟨"\"id\" must be a valid GUID", ["id"]⟩]⟩] ∧
      (validate idParamSchema .params
          ⟨⟨[("id", .str "00000000-0000-4000-8000-000000000000")]⟩, ⟨[]⟩, ⟨[]⟩⟩).2.nexts =
        [none] ∧
      (match (idParamSchema.validate req.params).error with
       | some details =>
         getTaskRoute pool req w =
             (.failed ⟨400, ⟨"Validation error", 400,
               some (details.map (fun d => ⟨d.message, d.path⟩))⟩, none⟩, w) ∧
           updateTaskRoute pool req w =
             (.failed ⟨400, ⟨"Validation error", 400,
               some (details.map (fun d => ⟨d.message, d.path⟩))⟩, none⟩, w) ∧
           patchCompletedRoute pool req w =
             (.failed ⟨400, ⟨"Validation error", 400,
               some (details.map (fun d => ⟨d.message, d.path⟩))⟩, none⟩, w) ∧
           deleteTaskRoute pool req w =
             (.failed ⟨400, ⟨"Validation error", 400,
               some (details.map (fun d => ⟨d.message, d.path⟩))⟩, none⟩, w)
       | none => True) := by
  refine ⟨idParamSchema_validate o, by decide, by decide, by decide, ?_⟩
  cases h : (idParamSchema.validate req.params).error with
  | none => trivial
  | some details =>
    exact ⟨route_stops_at_id _ _ req w details h, route_stops_at_id _ _ req w details h,
      route_stops_at_id _ _ req w details h, route_stops_at_id _ _ req w details h⟩

/-! ## C21: the query of `listTasks` -/

/-- C21, counterexample: in the query `page=&limit=` page and limit are
present, as empty strings, yet `listTasks` does not convert them to numbers
(`Number('')` is 0): it passes undefined for both, and the engine then binds
its own default limit 50. -/
theorem listTasks_empty_limit_not_converted :
    (listTasksFilter { page := .str "", limit := .str "" }).page = .undefined ∧
      (listTasksFilter { page := .str "", limit := .str "" }).limit = .undefined ∧
      (JSVal.str "").toNumber = .num 0 ∧
      (listTasksFilter { page := .str "", limit := .str "" }).limit ≠ (JSVal.str "").toNumber ∧
      (getTasksCall (some (listTasksFilter { page := .str "", limit := .str "" }))).values
        = [.num 50, .num 0] := by
  decide

/-- C21, amended: for every query, `listTasks` passes page 1 and limit 10 when
page and limit are absent; a page or limit that is present is converted with
`Number` when it is truthy and passed as undefined when it is falsy (the empty
string, the number 0); completed becomes true for the string `true`, false for
the string `false` (and for every other string), and undefined when it is
absent; sortBy and sortOrder are passed through unchanged; and the handler
answers 200 with exactly the rows the engine resolved to.  The query `{page: 2,
limit: 20, completed: 'true', sortBy: 'title', sortOrder: 'asc'}` reaches
`getTasks` as `{page: 2, limit: 20, completed: true, sortBy: 'title',
sortOrder: 'asc'}`, with page and limit given as numbers or as the strings `2`
and `20`.  The conversion is that of `Number`: `1e1` is passed as 10, `0x10`
as 16, `1.5` as 1.5, `Infinity` as the infinity, `9007199254740993` as the
double 9007199254740992 and `abc` as `NaN`. -/
theorem listTasks_query_mapping {σ : Type} (pool : Pool σ) (q : Query) (w : World σ) :
    (listTasksFilter q).page =
        (if q.page = .undefined then .num 1
         else if q.page.truthy then q.page.toNumber else .undefined) ∧
      (listTasksFilter q).limit =
        (if q.limit = .undefined then .num 10
         else if q.limit.truthy then q.limit.toNumber else .undefined) ∧
      (listTasksFilter q).completed =
        (match q.completed with
         | .str s => .bool (decide (s = "true"))
         | _ => .undefined) ∧
      (listTasksFilter { completed := .str "true" }).completed = .bool true ∧
      (listTasksFilter { completed := .str "false" }).completed = .bool false ∧
      (listTasksFilter {}).completed = .undefined ∧
      (listTasksFilter q).sortBy = q.sortBy ∧
      (listTasksFilter q).sortOrder = q.sortOrder ∧
      listTasks pool q w =
        (Except.map (fun tasks => { status := 200, body := tasks })
            (getTasks pool (some (listTasksFilter q)) w).1,
          (getTasks pool (some (listTasksFilter q)) w).2) ∧
      listTasksFilter
          { page := .num 2, limit := .num 20, completed := .str "true", sortBy := .str "title",
            sortOrder := .str "asc" } =
        { page := .num 2, limit := .num 20, completed := .bool true, sortBy := .str "title",
          sortOrder := .str "asc" } ∧
      listTasksFilter
          { page := .str "2", limit := .str "20", completed := .str "true",
            sortBy := .str "title", sortOrder := .str "asc" } =
        { page := .num 2, limit := .num 20, completed := .bool true, sortBy := .str "title",
          sortOrder := .str "asc" } ∧
      listTasksFilter { page := .str "1e1", limit := .str "0x10" } =
        { page := .num 10, limit := .num 16 } ∧
      listTasksFilter { page := .str "1.5", limit := .str "Infinity" } =
        { page := .frac 3 1, limit := .inf false } ∧
      listTasksFilter { page := .str "9007199254740993", limit := .str "abc" } =
        { page := .num 9007199254740992, limit := .nan } := by
  have hb : ∀ s : String, (JSVal.str s == JSVal.str "true") = decide (s = "true") := by
    intro s
    by_cases h : s = "true" <;> simp [h]
  refine ⟨?_, ?_, ?_, by decide, by decide, by decide, rfl, rfl, ?_, by decide, by decide,
    by decide, by decide, by decide⟩
  · by_cases h : q.page = .undefined
    · simp [listTasksFilter, orDefault, h, JSVal.truthy, JSVal.toNumber]
    · simp [listTasksFilter, orDefault, h]
  · by_cases h : q.limit = .undefined
    · simp [listTasksFilter, orDefault, h, JSVal.truthy, JSVal.toNumber]
    · simp [listTasksFilter, orDefault, h]
  · obtain ⟨p, l, c, sb, so⟩ := q
    cases c <;> simp [listTasksFilter, JSVal.isString, hb]
  · simp only [listTasks]
    generalize getTasks pool (some (listTasksFilter q)) w = r
    obtain ⟨x, w1⟩ := r
    cases x <;> rfl

/-! ## C22: placeholders and bound values -/

theorem placeholdersOf_append_clean (a b : List Char) (h : ∀ c ∈ a, c ≠ '$') :
    placeholdersOf (a ++ b) = placeholdersOf b := by
  induction a with
  | nil => rfl
  | cons c cs ih =>
    have hc : c ≠ '$' := h c (List.mem_cons_self _ _)
    simp only [List.cons_append, placeholdersOf, hc, if_false]
    exact ih (fun x hx => h x (List.mem_cons_of_mem _ hx))

theorem column_no_dollar (col : String) (h : col ∈ validSortBy) :
    ∀ c ∈ col.data, c ≠ '$' := by
  simp only [validSortBy, List.mem_cons, List.mem_singleton, List.not_mem_nil, or_false] at h
  rcases h with h | h | h <;> subst h <;> decide

theorem lower_no_dollar (dir : String) (h : toLowerCase dir ∈ validSortOrder) :
    ∀ c ∈ dir.data, c ≠ '$' := by
  intro c hc hceq
  have hm : Char.toLower c ∈ (toLowerCase dir).data := by
    simp only [toLowerCase]
    exact List.mem_map_of_mem _ hc
  subst hceq
  simp only [validSortOrder, List.mem_cons, List.mem_singleton, List.not_mem_nil, or_false] at h
  rcases h with h | h <;> rw [h] at hm <;> revert hm <;> decide

/-- The placeholders of a list statement are 1, 2 and, with the completed
filter, 3, each once and in this order. -/
theorem placeholders_listSql (wb : Bool) (col dir : String) (hcol : col ∈ validSortBy)
    (hdir : toLowerCase dir ∈ validSortOrder) :
    placeholders
        (listSql (if wb then "WHERE completed = $1" else "") col dir (if wb then 3 else 2))
      = if wb then [1, 2, 3] else [1, 2] := by
  unfold placeholders
  rw [listSql_data]
  have hH : ∀ c ∈
      "\n    SELECT id, title, completed, created_at, updated_at\n    FROM tasks\n    ".data,
      c ≠ '$' := by decide
  have hO : ∀ c ∈ "\n    ORDER BY ".data, c ≠ '$' := by decide
  have hcd : ∀ c ∈ col.data ++ ' ' :: dir.data, c ≠ '$' := by
    intro c hc
    rcases List.mem_append.mp hc with h1 | h1
    · exact column_no_dollar col hcol c h1
    · rcases List.mem_cons.mp h1 with h2 | h2
      · subst h2; decide
      · exact lower_no_dollar dir hdir c h2
  have assoc : ∀ X : List Char,
      col.data ++ (' ' :: (dir.data ++ X)) = (col.data ++ ' ' :: dir.data) ++ X := by
    intro X; simp
  rw [placeholdersOf_append_clean _ _ hH]
  cases wb
  · have e1 : ∀ X : List Char, placeholdersOf ("".data ++ X) = placeholdersOf X := fun X => rfl
    simp only [Bool.false_eq_true, if_false]
    rw [e1, placeholdersOf_append_clean _ _ hO, assoc, placeholdersOf_append_clean _ _ hcd]
    rfl
  · have e1 : ∀ X : List Char,
        placeholdersOf ("WHERE completed = $1".data ++ ("\n    ORDER BY ".data ++ X))
          = 1 :: placeholdersOf X := fun X => rfl
    simp only [if_true]
    rw [e1, assoc, placeholdersOf_append_clean _ _ hcd]
    rfl

theorem occurs_window (w col dir : String) :
    Occurs "LIMIT $1 OFFSET $2" (listSql w col dir 2) ∧
      Occurs "LIMIT $2 OFFSET $3" (listSql w col dir 3) := by
  have k2 : "\n    LIMIT $" ++ toString (2 - 1) ++ " OFFSET $" ++ toString 2 ++ "\n  "
      = "\n    " ++ "LIMIT $1 OFFSET $2" ++ "\n  " := by decide
  have k3 : "\n    LIMIT $" ++ toString (3 - 1) ++ " OFFSET $" ++ toString 3 ++ "\n  "
      = "\n    " ++ "LIMIT $2 OFFSET $3" ++ "\n  " := by decide
  constructor
  · refine ⟨"\n    SELECT id, title, completed, created_at, updated_at\n    FROM tasks\n    "
      ++ w ++ "\n    ORDER BY " ++ col ++ " " ++ dir ++ "\n    ", "\n  ", ?_⟩
    have : listSql w col dir 2 =
        ("\n    SELECT id, title, completed, created_at, updated_at\n    FROM tasks\n    "
          ++ w ++ "\n    ORDER BY " ++ col ++ " " ++ dir)
        ++ ("\n    LIMIT $" ++ toString (2 - 1) ++ " OFFSET $" ++ toString 2 ++ "\n  ") := by
      simp only [listSql, String.append_assoc]
    rw [this, k2]
    simp only [String.append_assoc]
  · refine ⟨"\n    SELECT id, title, completed, created_at, updated_at\n    FROM tasks\n    "
      ++ w ++ "\n    ORDER BY " ++ col ++ " " ++ dir ++ "\n    ", "\n  ", ?_⟩
    have : listSql w col dir 3 =
        ("\n    SELECT id, title, completed, created_at, updated_at\n    FROM tasks\n    "
          ++ w ++ "\n    ORDER BY " ++ col ++ " " ++ dir)
        ++ ("\n    LIMIT $" ++ toString (3 - 1) ++ " OFFSET $" ++ toString 3 ++ "\n  ") := by
      simp only [listSql, String.append_assoc]
    rw [this, k3]
    simp only [String.append_assoc]

theorem occurs_where (col dir : String) (n : Nat) :
    Occurs "completed = $1" (listSql "WHERE completed = $1" col dir n) := by
  refine ⟨"\n    SELECT id, title, completed, created_at, updated_at\n    FROM tasks\n    "
    ++ "WHERE ", "\n    ORDER BY " ++ col ++ " " ++ dir
    ++ "\n    LIMIT $" ++ toString (n - 1) ++ " OFFSET $" ++ toString n ++ "\n  ", ?_⟩
  have k : "WHERE completed = $1" = "WHERE " ++ "completed = $1" := by decide
  rw [listSql, k]
  simp only [String.append_assoc]

/-- C22: for every filter given to `getTasks` the placeholders of the text and
the bound values agree.  Without a completed filter the values are
`[limit, offset]` and `LIMIT $1 OFFSET $2` occurs in the text; with it they are
`[completed, limit, offset]` and `completed = $1` and `LIMIT $2 OFFSET $3`
occur.  The placeholders of the text are the numbers 1 to the length of the
values, each exactly once, so each refers to a position that exists and each
value is referred to by exactly one; the placeholder of LIMIT has the limit
bound to it, that of OFFSET the offset, and that of the filter completed. -/
theorem getTasks_placeholders_agree (arg : Option Filter) :
    placeholders (getTasksCall arg).sql = List.range' 1 (getTasksCall arg).values.length ∧
      (getTasksCall arg).values =
        (if (arg.getD {}).completed.isBoolean then [(arg.getD {}).completed] else []) ++
          [orDefault (arg.getD {}).limit (.num 50),
           jsMul (jsSub (orDefault (arg.getD {}).page (.num 1)) (.num 1))
             (orDefault (arg.getD {}).limit (.num 50))] ∧
      (if (arg.getD {}).completed.isBoolean then
          Occurs "completed = $1" (getTasksCall arg).sql ∧
            Occurs "LIMIT $2 OFFSET $3" (getTasksCall arg).sql
        else Occurs "LIMIT $1 OFFSET $2" (getTasksCall arg).sql) ∧
      (∃ st, parseListSql (getTasksCall arg).sql = some st ∧
        boundValue (getTasksCall arg).values st.limitPh
          = some (orDefault (arg.getD {}).limit (.num 50)) ∧
        boundValue (getTasksCall arg).values st.offsetPh
          = some (jsMul (jsSub (orDefault (arg.getD {}).page (.num 1)) (.num 1))
              (orDefault (arg.getD {}).limit (.num 50))) ∧
        (match st.wherePh with
         | some k =>
           (arg.getD {}).completed.isBoolean = true ∧
             boundValue (getTasksCall arg).values k = some (arg.getD {}).completed
         | none => (arg.getD {}).completed.isBoolean = false)) := by
  refine ⟨?_, ?_, ?_, ⟨_, parse_getTasksCall arg, (getTasksCall_bound arg).1,
    (getTasksCall_bound arg).2, ?_⟩⟩
  · rw [getTasksCall_sql, placeholders_listSql _ _ _ (orderByOf_mem _) (directionOf_lower _),
      getTasksCall_values]
    cases h : (arg.getD {}).completed.isBoolean <;> simp [completedValues, h, List.range']
  · rw [getTasksCall_values]
    simp [completedValues]
  · rw [getTasksCall_sql]
    cases h : (arg.getD {}).completed.isBoolean
    · simpa using (occurs_window _ _ _).1
    · simpa using And.intro (occurs_where _ _ _) (occurs_window _ _ _).2
  · rw [getTasksCall_values]
    cases h : (arg.getD {}).completed.isBoolean <;> simp [completedValues, h, boundValue]

end TaskApi
